import Mathlib

/-!
Verification of the showtime collection and aggregation pipeline (`bms4.py`).

The embedding models Python semantics as follows:
* Python unbounded `int` is `ℤ` (seat counters coming from `int(...)` casts);
* Python `float` is idealized as `ℚ` with exact arithmetic; `round(x, 2)` is
  modelled by `pyRound2`, rounding to a multiple of 1/100 with ties to even;
* Python dicts used as accumulators are association lists preserving
  insertion order (`upsert` updates the first matching key in place and
  appends new keys at the end, like CPython dicts);
* Python sets of strings are `Finset String`;
* JSON values are the inductive type `JVal`; dynamic attribute/int/float
  errors raised by the parser are modelled in `Except PyErr`.
-/

set_option autoImplicit false

attribute [local semireducible] Rat.mul Rat.inv Rat.add Rat.sub

namespace BMS

/-- A normalized show record (`parse_payload` output dict, plus the
`city`/`state`/`source`/`date` tags attached by the per-venue loop;
the parser leaves those four at their `""` default). -/
structure ShowRecord where
  movie : String
  venue : String
  address : String
  language : String
  dimension : String
  chain : String
  time : String
  audi : String
  session_id : String
  totalSeats : ℤ
  available : ℤ
  sold : ℤ
  gross : ℚ
  city : String
  state : String
  source : String
  date : String
  deriving DecidableEq, Repr

/-- The composite dedup key `(r["venue"], r["time"], r["session_id"], r["audi"])`. -/
def rkey (r : ShowRecord) : String × String × String × String :=
  (r.venue, r.time, r.session_id, r.audi)

/-- The loop of `dedupe`, carrying the `seen` set of keys. -/
def dedupeAux (seen : List (String × String × String × String)) :
    List ShowRecord → List ShowRecord
  | [] => []
  | r :: rs =>
    if rkey r ∈ seen then dedupeAux seen rs
    else r :: dedupeAux (rkey r :: seen) rs

/-- `dedupe(rows)` from the source: first-seen-wins on `rkey`. -/
def dedupe (rows : List ShowRecord) : List ShowRecord :=
  dedupeAux [] rows

/-- Specification-side recursion: keep each element whose key has not
appeared earlier in the list (first occurrence per key, in order). -/
def firstsBy {α κ : Type} [DecidableEq κ] (k : α → κ) : List α → List α
  | [] => []
  | a :: l => a :: firstsBy k (l.filter fun b => decide (k b ≠ k a))
termination_by l => l.length
decreasing_by
  simp only [List.length_cons]
  exact Nat.lt_succ_of_le (List.length_filter_le _ _)

end BMS

namespace BMS

/-- Round a rational to the nearest integer, ties to even (the rounding used
by Python's builtin `round`). -/
def roundHalfEven (q : ℚ) : ℤ :=
  if q - ⌊q⌋ < 1 / 2 then ⌊q⌋
  else if 1 / 2 < q - ⌊q⌋ then ⌊q⌋ + 1
  else if ⌊q⌋ % 2 = 0 then ⌊q⌋ else ⌊q⌋ + 1

/-- Python `round(q, 2)`: round to a multiple of 1/100, ties to even. -/
def pyRound2 (q : ℚ) : ℚ :=
  (roundHalfEven (q * 100) : ℚ) / 100

/-- `calc_occupancy(sold, total)`: `round((sold / total) * 100, 2) if total else 0.0`. -/
def calc_occupancy (sold total : ℤ) : ℚ :=
  if total ≠ 0 then pyRound2 ((sold : ℚ) / (total : ℚ) * 100) else 0

/-- The occupancy the summary loop computes for a record:
`occ = calc_occupancy(r["sold"], r["totalSeats"])`. -/
def occR (r : ShowRecord) : ℚ :=
  calc_occupancy r.sold r.totalSeats

/-- First-match lookup in an association list (Python `d[k]` on a dict whose
keys are unique). -/
def lookupA {κ β : Type} [DecidableEq κ] (k : κ) : List (κ × β) → Option β
  | [] => none
  | (k', v) :: rest => if k' = k then some v else lookupA k rest

/-- The CPython-dict pattern `if k not in d: d[k] = init` followed by an
in-place update of `d[k]`: update the first entry with key `k` in place,
or append `(k, f init)` at the end when `k` is absent. -/
def upsert {κ β : Type} [DecidableEq κ] (k : κ) (init : β) (f : β → β) :
    List (κ × β) → List (κ × β)
  | [] => [(k, f init)]
  | (k', v) :: rest =>
    if k' = k then (k', f v) :: rest else (k', v) :: upsert k init f rest

/-- A sub-rollup accumulator (the per-(city,state), per-language and
per-format dicts of the summary loop).  The Python dict also stores the
grouping key fields (`city`/`state`, `language`, `dimension`) redundantly in
the value; the embedding keeps them only as the association-list key, from
which finalization reads them back. -/
structure DBucket where
  venues : Finset String
  shows : ℕ
  gross : ℚ
  sold : ℤ
  totalSeats : ℤ
  fastfilling : ℕ
  housefull : ℕ
  deriving DecidableEq

/-- A fresh sub-bucket, as initialized by the summary loop. -/
def initD : DBucket :=
  { venues := ∅, shows := 0, gross := 0, sold := 0, totalSeats := 0
    fastfilling := 0, housefull := 0 }

/-- The per-movie accumulator `summary[movie]`. -/
structure MovieAgg where
  shows : ℕ
  gross : ℚ
  sold : ℤ
  totalSeats : ℤ
  venues : Finset String
  cities : Finset String
  fastfilling : ℕ
  housefull : ℕ
  details : List ((String × String) × DBucket)
  lang_details : List (String × DBucket)
  fmt_details : List (String × DBucket)
  deriving DecidableEq

/-- A fresh movie accumulator, as initialized by the summary loop. -/
def initMovie : MovieAgg :=
  { shows := 0, gross := 0, sold := 0, totalSeats := 0
    venues := ∅, cities := ∅, fastfilling := 0, housefull := 0
    details := [], lang_details := [], fmt_details := [] }

/-- One record's contribution to a sub-bucket (`d`/`L`/`F` in the source):
add to the sums, insert the venue, and bump `housefull` when `occ >= 98`,
else `fastfilling` when `occ >= 50`. -/
def updDB (r : ShowRecord) (occ : ℚ) (d : DBucket) : DBucket :=
  { venues := insert r.venue d.venues
    shows := d.shows + 1
    gross := d.gross + r.gross
    sold := d.sold + r.sold
    totalSeats := d.totalSeats + r.totalSeats
    housefull := if 98 ≤ occ then d.housefull + 1 else d.housefull
    fastfilling :=
      if 98 ≤ occ then d.fastfilling
      else if 50 ≤ occ then d.fastfilling + 1 else d.fastfilling }

/-- One record's contribution to its movie accumulator `m`: the top-level
sums/sets/classification plus the upserts into the three sub-rollup dicts. -/
def stepMovie (r : ShowRecord) (m : MovieAgg) : MovieAgg :=
  let occ := occR r
  { shows := m.shows + 1
    gross := m.gross + r.gross
    sold := m.sold + r.sold
    totalSeats := m.totalSeats + r.totalSeats
    venues := insert r.venue m.venues
    cities := insert r.city m.cities
    housefull := if 98 ≤ occ then m.housefull + 1 else m.housefull
    fastfilling :=
      if 98 ≤ occ then m.fastfilling
      else if 50 ≤ occ then m.fastfilling + 1 else m.fastfilling
    details := upsert (r.city, r.state) initD (updDB r occ) m.details
    lang_details := upsert r.language initD (updDB r occ) m.lang_details
    fmt_details := upsert r.dimension initD (updDB r occ) m.fmt_details }

/-- One iteration of the summary loop (`for r in detailed`). -/
def accumRecord (summary : List (String × MovieAgg)) (r : ShowRecord) :
    List (String × MovieAgg) :=
  upsert r.movie initMovie (stepMovie r) summary

/-- The whole summary accumulation loop over the (deduplicated) records. -/
def aggregate (rows : List ShowRecord) : List (String × MovieAgg) :=
  rows.foldl accumRecord []

/-- One finalized `City_details` entry. -/
structure FinalCityD where
  city : String
  state : String
  venues : ℕ
  shows : ℕ
  gross : ℚ
  sold : ℤ
  totalSeats : ℤ
  fastfilling : ℕ
  housefull : ℕ
  occupancy : ℚ
  deriving DecidableEq

/-- One finalized `Language_details` or `Format_details` entry; `tag` stands
for the `language` resp. `dimension` field. -/
structure FinalDimD where
  tag : String
  venues : ℕ
  shows : ℕ
  gross : ℚ
  sold : ℤ
  totalSeats : ℤ
  fastfilling : ℕ
  housefull : ℕ
  occupancy : ℚ
  deriving DecidableEq

/-- One finalized movie entry of `final_summary`. -/
structure FinalMovie where
  shows : ℕ
  gross : ℚ
  sold : ℤ
  totalSeats : ℤ
  venues : ℕ
  cities : ℕ
  fastfilling : ℕ
  housefull : ℕ
  occupancy : ℚ
  City_details : List FinalCityD
  Language_details : List FinalDimD
  Format_details : List FinalDimD
  deriving DecidableEq

/-- Finalize one `City_details` entry. -/
def finalizeCityD (city state : String) (d : DBucket) : FinalCityD :=
  { city := city, state := state, venues := d.venues.card, shows := d.shows
    gross := pyRound2 d.gross, sold := d.sold, totalSeats := d.totalSeats
    fastfilling := d.fastfilling, housefull := d.housefull
    occupancy := calc_occupancy d.sold d.totalSeats }

/-- Finalize one `Language_details` or `Format_details` entry. -/
def finalizeDimD (tag : String) (d : DBucket) : FinalDimD :=
  { tag := tag, venues := d.venues.card, shows := d.shows
    gross := pyRound2 d.gross, sold := d.sold, totalSeats := d.totalSeats
    fastfilling := d.fastfilling, housefull := d.housefull
    occupancy := calc_occupancy d.sold d.totalSeats }

/-- Finalize one movie: counts from the sets, rounded gross, derived
occupancy, and the three detail arrays in dict (insertion) order. -/
def finalizeMovie (m : MovieAgg) : FinalMovie :=
  { shows := m.shows, gross := pyRound2 m.gross, sold := m.sold
    totalSeats := m.totalSeats, venues := m.venues.card, cities := m.cities.card
    fastfilling := m.fastfilling, housefull := m.housefull
    occupancy := calc_occupancy m.sold m.totalSeats
    City_details := m.details.map fun p => finalizeCityD p.1.1 p.1.2 p.2
    Language_details := m.lang_details.map fun p => finalizeDimD p.1 p.2
    Format_details := m.fmt_details.map fun p => finalizeDimD p.1 p.2 }

/-- `final_summary`: aggregate the records, then finalize every movie. -/
def finalSummary (rows : List ShowRecord) : List (String × FinalMovie) :=
  (aggregate rows).map fun p => (p.1, finalizeMovie p.2)

/-- Fold a per-element update over a list (the element comes first, as in
the summary loop's updates). -/
def bfold {α β : Type} (step : α → β → β) (b : β) (l : List α) : β :=
  l.foldl (fun b a => step a b) b

/-- A group-by fold over an association list: each element is upserted into
the bucket of its key.  `aggregate` and the three sub-rollup dicts are
instances of this shape. -/
def groupFold {α κ β : Type} [DecidableEq κ] (key : α → κ) (init : β)
    (step : α → β → β) (s : List (κ × β)) (l : List α) : List (κ × β) :=
  l.foldl (fun s a => upsert (key a) init (step a) s) s

/-- The per-record update of a sub-rollup bucket, with the occupancy the
summary loop derives from the record itself. -/
def stepD (r : ShowRecord) (d : DBucket) : DBucket :=
  updDB r (occR r) d

/-- The movie bucket of `r`'s movie before the summary loop processes `r`
(a fresh bucket when the movie is not yet present). -/
def movieBefore (s : List (String × MovieAgg)) (r : ShowRecord) : MovieAgg :=
  (lookupA r.movie s).getD initMovie

/-- The movie bucket of `r`'s movie after the summary loop processes `r`. -/
def movieAfter (s : List (String × MovieAgg)) (r : ShowRecord) : MovieAgg :=
  (lookupA r.movie (accumRecord s r)).getD initMovie

/-- The (city, state) sub-bucket `r` contributes to, before processing `r`. -/
def cityBefore (s : List (String × MovieAgg)) (r : ShowRecord) : DBucket :=
  (lookupA (r.city, r.state) (movieBefore s r).details).getD initD

/-- The (city, state) sub-bucket `r` contributes to, after processing `r`. -/
def cityAfter (s : List (String × MovieAgg)) (r : ShowRecord) : DBucket :=
  (lookupA (r.city, r.state) (movieAfter s r).details).getD initD

/-- The language sub-bucket `r` contributes to, before processing `r`. -/
def langBefore (s : List (String × MovieAgg)) (r : ShowRecord) : DBucket :=
  (lookupA r.language (movieBefore s r).lang_details).getD initD

/-- The language sub-bucket `r` contributes to, after processing `r`. -/
def langAfter (s : List (String × MovieAgg)) (r : ShowRecord) : DBucket :=
  (lookupA r.language (movieAfter s r).lang_details).getD initD

/-- The format sub-bucket `r` contributes to, before processing `r`. -/
def fmtBefore (s : List (String × MovieAgg)) (r : ShowRecord) : DBucket :=
  (lookupA r.dimension (movieBefore s r).fmt_details).getD initD

/-- The format sub-bucket `r` contributes to, after processing `r`. -/
def fmtAfter (s : List (String × MovieAgg)) (r : ShowRecord) : DBucket :=
  (lookupA r.dimension (movieAfter s r).fmt_details).getD initD

/-- A sample record: a nearly sold-out show (98 of 100 seats sold). -/
def sampleRec1 : ShowRecord :=
  { movie := "M", venue := "V1", address := "A1", language := "Hindi"
    dimension := "2D", chain := "PVR", time := "10:00", audi := "Audi 1"
    session_id := "1", totalSeats := 100, available := 2, sold := 98
    gross := 19600, city := "Mumbai", state := "MH", source := "BMS"
    date := "20260101" }

/-- A sample record: a lightly sold show in another city/language/format. -/
def sampleRec2 : ShowRecord :=
  { movie := "M", venue := "V2", address := "A2", language := "Tamil"
    dimension := "IMAX", chain := "INOX", time := "12:00", audi := ""
    session_id := "2", totalSeats := 50, available := 30, sold := 20
    gross := 4000, city := "Pune", state := "MH", source := "BMS"
    date := "20260101" }

/-- A two-record sample input for the aggregator. -/
def sampleRows : List ShowRecord :=
  [sampleRec1, sampleRec2]

/-- A malformed observation: more seats available than the auditorium has
(`SeatsAvail > MaxSeats` upstream), so the parser's `sold = seats - free`
is negative. -/
def badRec : ShowRecord :=
  { movie := "M", venue := "V1", address := "A1", language := "Hindi"
    dimension := "2D", chain := "PVR", time := "10:00", audi := "Audi 1"
    session_id := "1", totalSeats := 100, available := 200, sold := -100
    gross := 0, city := "Mumbai", state := "MH", source := "BMS"
    date := "20260101" }

/-- The finalized summary entry produced from `badRec` alone. -/
def badFM : FinalMovie :=
  finalizeMovie (bfold stepMovie initMovie [badRec])

/-- The finalized summary entry of movie "M" over `sampleRows`. -/
def sampleFM : FinalMovie :=
  finalizeMovie (bfold stepMovie initMovie sampleRows)

/-- Canonical value of a sub-bucket accumulated over a record list: an
order-insensitive closed form (sums, counts and a set of venues). -/
def dbOf (l : List ShowRecord) : DBucket :=
  { venues := (l.map ShowRecord.venue).toFinset
    shows := l.length
    gross := (l.map ShowRecord.gross).sum
    sold := (l.map ShowRecord.sold).sum
    totalSeats := (l.map ShowRecord.totalSeats).sum
    housefull := l.countP fun r => decide (98 ≤ occR r)
    fastfilling := l.countP fun r => decide (¬ 98 ≤ occR r ∧ 50 ≤ occR r) }

/-- JSON values, as delivered by the upstream API after `r.json()`. -/
inductive JVal : Type where
  | jnull : JVal
  | jbool : Bool → JVal
  | jint : ℤ → JVal
  | jnum : ℚ → JVal
  | jstr : String → JVal
  | jarr : List JVal → JVal
  | jobj : List (String × JVal) → JVal

/-- The exception kinds the parser's dynamic operations can raise. -/
inductive PyErr : Type where
  | attributeError : PyErr
  | typeError : PyErr
  | valueError : PyErr
  deriving DecidableEq, Repr

/-- Python truthiness of a JSON value. -/
def pyTruthy : JVal → Bool
  | JVal.jnull => false
  | JVal.jbool b => b
  | JVal.jint n => n != 0
  | JVal.jnum q => q != 0
  | JVal.jstr s => s != ""
  | JVal.jarr l => ! l.isEmpty
  | JVal.jobj l => ! l.isEmpty

/-- First-match field lookup inside a JSON object. -/
def jlookup (key : String) : List (String × JVal) → Option JVal
  | [] => none
  | (k, v) :: rest => if k = key then some v else jlookup key rest

/-- Python `d.get(key, dflt)`: returns the field or the default on a dict,
raises `AttributeError` on any non-dict value. -/
def pyGet (v : JVal) (key : String) (dflt : JVal) : Except PyErr JVal :=
  match v with
  | JVal.jobj fields => Except.ok ((jlookup key fields).getD dflt)
  | _ => Except.error PyErr.attributeError

/-- The embedding's record fields are string-typed, so a payload placing a
non-string value in a field the source stores verbatim (venue name, title,
show time, attributes) is outside the modelled fragment; such a value maps to
`typeError` here. -/
def asStr : JVal → Except PyErr String
  | JVal.jstr s => Except.ok s
  | _ => Except.error PyErr.typeError

/-- Strip ASCII whitespace from both ends (Python `str.strip()`),
implemented over the character list so that it evaluates by reduction. -/
def strTrim (s : String) : String :=
  String.mk
    (((s.toList.dropWhile fun c => c.isWhitespace).reverse.dropWhile
      fun c => c.isWhitespace).reverse)

/-- Python `v.strip()`: trims a string, raises `AttributeError` otherwise. -/
def pyStrip : JVal → Except PyErr String
  | JVal.jstr s => Except.ok (strTrim s)
  | _ => Except.error PyErr.attributeError

/-- Truncation toward zero, as Python's `int(float)`. -/
def ratTrunc (q : ℚ) : ℤ :=
  if 0 ≤ q then ⌊q⌋ else -⌊-q⌋

/-- Parse a decimal digit string as a natural number (`none` when empty or
containing a non-digit). -/
def digitsToNat : List Char → Option ℕ
  | [] => none
  | cs =>
    cs.foldl (fun acc c =>
      acc.bind fun n => if c.isDigit then some (n * 10 + (c.toNat - 48)) else none)
      (some 0)

/-- Parse a Python int literal `[+-]?digits` (surrounding whitespace
ignored, as `int(str)` does). -/
def strToInt (s : String) : Option ℤ :=
  match (strTrim s).toList with
  | '-' :: rest => (digitsToNat rest).map fun n => -(n : ℤ)
  | '+' :: rest => (digitsToNat rest).map fun n => (n : ℤ)
  | cs => (digitsToNat cs).map fun n => (n : ℤ)

/-- Python `int(v)`: ints and bools pass through, floats truncate, strings
parse (or raise `ValueError`), anything else raises `TypeError`. -/
def pyInt : JVal → Except PyErr ℤ
  | JVal.jbool b => Except.ok (if b then 1 else 0)
  | JVal.jint n => Except.ok n
  | JVal.jnum q => Except.ok (ratTrunc q)
  | JVal.jstr s =>
    match strToInt s with
    | some n => Except.ok n
    | none => Except.error PyErr.valueError
  | _ => Except.error PyErr.typeError

/-- Parse a Python float literal `[+-]?digits[.digits]` into a rational. -/
def strToRat (s : String) : Option ℚ :=
  let cs := (strTrim s).toList
  let signed : ℤ × List Char :=
    match cs with
    | '-' :: rest => (-1, rest)
    | '+' :: rest => (1, rest)
    | _ => (1, cs)
  let ipart := signed.2.takeWhile fun c => c != '.'
  let rest := signed.2.dropWhile fun c => c != '.'
  match rest with
  | [] => (digitsToNat ipart).map fun n => (signed.1 * n : ℤ)
  | '.' :: fpart =>
    if ipart.isEmpty && fpart.isEmpty then none
    else if fpart.isEmpty then
      (digitsToNat ipart).map fun n => (signed.1 * n : ℤ)
    else
      match digitsToNat (ipart ++ fpart), ipart.isEmpty with
      | some n, false =>
        some (signed.1 * ((n : ℚ) / ((10 : ℚ) ^ fpart.length)))
      | _, true =>
        (digitsToNat fpart).map fun n =>
          signed.1 * ((n : ℚ) / ((10 : ℚ) ^ fpart.length))
      | none, _ => none
  | _ => none

/-- Python `float(v)`: numbers and bools convert, strings parse (or raise
`ValueError`), anything else raises `TypeError`. -/
def pyFloat : JVal → Except PyErr ℚ
  | JVal.jbool b => Except.ok (if b then 1 else 0)
  | JVal.jint n => Except.ok n
  | JVal.jnum q => Except.ok q
  | JVal.jstr s =>
    match strToRat s with
    | some q => Except.ok q
    | none => Except.error PyErr.valueError
  | _ => Except.error PyErr.typeError

/-- Python `str(v)`.  `str` never raises; the formatting of non-scalar and
non-integral values (never produced for `SessionId` upstream) is idealized. -/
def pyStrOf : JVal → String
  | JVal.jstr s => s
  | JVal.jint n => toString n
  | JVal.jbool b => if b then "True" else "False"
  | JVal.jnull => "None"
  | JVal.jnum q => toString q
  | JVal.jarr _ => "[...]"
  | JVal.jobj _ => "\x7b...\x7d"

/-- Python `v == s` for a string constant `s`: true only for an equal string. -/
def isStrEq (v : JVal) (s : String) : Bool :=
  match v with
  | JVal.jstr t => t == s
  | _ => false

/-- Python iteration `for x in v`: lists yield elements, strings yield
one-character strings, dicts yield their keys, anything else raises. -/
def pyIter : JVal → Except PyErr (List JVal)
  | JVal.jarr l => Except.ok l
  | JVal.jstr s => Except.ok (s.toList.map fun c => JVal.jstr (String.singleton c))
  | JVal.jobj l => Except.ok (l.map fun p => JVal.jstr p.1)
  | _ => Except.error PyErr.typeError

/-- Python `v[0]`: first element of a list, first character of a string,
an error otherwise (the empty cases are guarded by truthiness upstream). -/
def pyIndex0 : JVal → Except PyErr JVal
  | JVal.jarr (x :: _) => Except.ok x
  | JVal.jarr [] => Except.error PyErr.typeError
  | JVal.jstr s =>
    match s.toList with
    | c :: _ => Except.ok (JVal.jstr (String.singleton c))
    | [] => Except.error PyErr.typeError
  | _ => Except.error PyErr.typeError

/-- The seat-category loop of `parse_payload`, carrying the running
`(total, avail, sold, gross)`; missing numeric fields default to 0. -/
def sumCatsAux (acc : ℤ × ℤ × ℤ × ℚ) : List JVal → Except PyErr (ℤ × ℤ × ℤ × ℚ)
  | [] => Except.ok acc
  | cat :: rest => do
    let seats ← pyInt (← pyGet cat "MaxSeats" (JVal.jint 0))
    let free ← pyInt (← pyGet cat "SeatsAvail" (JVal.jint 0))
    let price ← pyFloat (← pyGet cat "CurPrice" (JVal.jint 0))
    sumCatsAux (acc.1 + seats, acc.2.1 + free, acc.2.2.1 + (seats - free),
      acc.2.2.2 + (seats - free) * price) rest

/-- The seat-category loop of `parse_payload`, from zero totals. -/
def sumCats (cats : List JVal) : Except PyErr (ℤ × ℤ × ℤ × ℚ) :=
  sumCatsAux (0, 0, 0, 0) cats

/-- The show-time body of `parse_payload`: skip entries whose `ShowDateCode`
differs from the target date, otherwise sum the categories and emit one
record (the orchestrator's four tag fields left at `""`). -/
def doShow (dc vn va chain title dim lang : String) (sh : JVal) :
    Except PyErr (List ShowRecord) := do
  let sdc ← pyGet sh "ShowDateCode" JVal.jnull
  if ! isStrEq sdc dc then
    pure []
  else do
    let cats ← pyIter (← pyGet sh "Categories" (JVal.jarr []))
    let sums ← sumCats cats
    let time ← asStr (← pyGet sh "ShowTime" (JVal.jstr ""))
    let attrs ← pyGet sh "Attributes" (JVal.jstr "")
    let audi ← if pyTruthy attrs then asStr attrs else pure ""
    let sess ← pyGet sh "SessionId" (JVal.jstr "")
    pure [{ movie := title, venue := vn, address := va, language := lang
            dimension := dim, chain := chain, time := time, audi := audi
            session_id := pyStrOf sess, totalSeats := sums.1
            available := sums.2.1, sold := sums.2.2.1
            gross := pyRound2 sums.2.2.2
            city := "", state := "", source := "", date := "" }]

/-- The `for sh in ch.get("ShowTimes", [])` loop, appending each surviving
entry's record to the output list. -/
def loopShows (dc vn va chain title dim lang : String) (acc : List ShowRecord) :
    List JVal → Except PyErr (List ShowRecord)
  | [] => Except.ok acc
  | sh :: rest => do
    let rs ← doShow dc vn va chain title dim lang sh
    loopShows dc vn va chain title dim lang (acc ++ rs) rest

/-- The child-event body of `parse_payload`: read dimension and language
(stripped, empty defaulting to `"UNKNOWN"`), then loop over `ShowTimes`. -/
def doChild (dc vn va chain title : String) (ch : JVal) :
    Except PyErr (List ShowRecord) := do
  let dimv ← pyGet ch "EventDimension" (JVal.jstr "")
  let dim0 ← pyStrip dimv
  let dim := if dim0 = "" then "UNKNOWN" else dim0
  let langv ← pyGet ch "EventLanguage" (JVal.jstr "")
  let lang0 ← pyStrip langv
  let lang := if lang0 = "" then "UNKNOWN" else lang0
  let shs ← pyIter (← pyGet ch "ShowTimes" (JVal.jarr []))
  loopShows dc vn va chain title dim lang [] shs

/-- The `for ch in ev.get("ChildEvents", [])` loop. -/
def loopChilds (dc vn va chain title : String) (acc : List ShowRecord) :
    List JVal → Except PyErr (List ShowRecord)
  | [] => Except.ok acc
  | ch :: rest => do
    let rs ← doChild dc vn va chain title ch
    loopChilds dc vn va chain title (acc ++ rs) rest

/-- The event body of `parse_payload`: read the title (default `"Unknown"`),
then loop over `ChildEvents`. -/
def doEvent (dc vn va chain : String) (ev : JVal) :
    Except PyErr (List ShowRecord) := do
  let title ← asStr (← pyGet ev "EventTitle" (JVal.jstr "Unknown"))
  let chs ← pyIter (← pyGet ev "ChildEvents" (JVal.jarr []))
  loopChilds dc vn va chain title [] chs

/-- The `for ev in sd[0].get("Event", [])` loop. -/
def loopEvents (dc vn va chain : String) (acc : List ShowRecord) :
    List JVal → Except PyErr (List ShowRecord)
  | [] => Except.ok acc
  | ev :: rest => do
    let rs ← doEvent dc vn va chain ev
    loopEvents dc vn va chain (acc ++ rs) rest

/-- `parse_payload(data)` from the source, with the module-level `DATE_CODE`
passed as the `dc` parameter: empty/absent `ShowDetails` returns `[]`;
otherwise the venue block and events are read from `ShowDetails[0]` only. -/
def parse_payload (dc : String) (data : JVal) : Except PyErr (List ShowRecord) := do
  let sd ← pyGet data "ShowDetails" (JVal.jarr [])
  if ! pyTruthy sd then
    pure []
  else do
    let sd0 ← pyIndex0 sd
    let venue ← pyGet sd0 "Venues" (JVal.jobj [])
    let vn ← asStr (← pyGet venue "VenueName" (JVal.jstr ""))
    let va ← asStr (← pyGet venue "VenueAdd" (JVal.jstr ""))
    let chain ← asStr (← pyGet venue "VenueCompName" (JVal.jstr "Unknown"))
    let evs ← pyIter (← pyGet sd0 "Event" (JVal.jarr []))
    loopEvents dc vn va chain [] evs

/-- Replace the first `ShowDetails` binding's list value by its first
element, leaving any other payload unchanged. -/
def truncFields : List (String × JVal) → List (String × JVal)
  | [] => []
  | (k, v) :: rest =>
    if k = "ShowDetails" then
      match v with
      | JVal.jarr (x :: _) => (k, JVal.jarr [x]) :: rest
      | _ => (k, v) :: rest
    else (k, v) :: truncFields rest

/-- A payload with its `ShowDetails` list truncated to its first element. -/
def truncateSD : JVal → JVal
  | JVal.jobj fields => JVal.jobj (truncFields fields)
  | v => v

/-- A seat category of a well-typed payload; `none` = field absent. -/
structure CatSpec where
  maxSeats : Option ℤ
  seatsAvail : Option ℤ
  curPrice : Option ℚ

/-- A show-time entry of a well-typed payload. -/
structure ShowSpec where
  dateCode : Option String
  showTime : Option String
  attrs : Option String
  sessionId : Option ℤ
  cats : List CatSpec

/-- A child event of a well-typed payload. -/
structure ChildSpec where
  dim : Option String
  lang : Option String
  shows : List ShowSpec

/-- An event of a well-typed payload. -/
structure EventSpec where
  title : Option String
  childs : List ChildSpec

/-- The venue block of a well-typed payload. -/
structure VenueSpec where
  name : Option String
  addr : Option String
  comp : Option String

/-- A well-typed payload: precisely the upstream schema with every field
optional and of its expected type. -/
structure PayloadSpec where
  venue : Option VenueSpec
  events : List EventSpec

/-- Encode an optional field of a JSON object. -/
def optField (key : String) : Option JVal → List (String × JVal)
  | none => []
  | some v => [(key, v)]

/-- Encode a seat category. -/
def encodeCat (c : CatSpec) : JVal :=
  JVal.jobj (optField "MaxSeats" (c.maxSeats.map JVal.jint)
    ++ optField "SeatsAvail" (c.seatsAvail.map JVal.jint)
    ++ optField "CurPrice" (c.curPrice.map JVal.jnum))

/-- Encode a show-time entry. -/
def encodeShow (s : ShowSpec) : JVal :=
  JVal.jobj (optField "ShowDateCode" (s.dateCode.map JVal.jstr)
    ++ optField "ShowTime" (s.showTime.map JVal.jstr)
    ++ optField "Attributes" (s.attrs.map JVal.jstr)
    ++ optField "SessionId" (s.sessionId.map JVal.jint)
    ++ [("Categories", JVal.jarr (s.cats.map encodeCat))])

/-- Encode a child event. -/
def encodeChild (c : ChildSpec) : JVal :=
  JVal.jobj (optField "EventDimension" (c.dim.map JVal.jstr)
    ++ optField "EventLanguage" (c.lang.map JVal.jstr)
    ++ [("ShowTimes", JVal.jarr (c.shows.map encodeShow))])

/-- Encode an event. -/
def encodeEvent (e : EventSpec) : JVal :=
  JVal.jobj (optField "EventTitle" (e.title.map JVal.jstr)
    ++ [("ChildEvents", JVal.jarr (e.childs.map encodeChild))])

/-- Encode the venue block. -/
def encodeVenue (v : VenueSpec) : JVal :=
  JVal.jobj (optField "VenueName" (v.name.map JVal.jstr)
    ++ optField "VenueAdd" (v.addr.map JVal.jstr)
    ++ optField "VenueCompName" (v.comp.map JVal.jstr))

/-- Encode the whole payload. -/
def mkPayload (p : PayloadSpec) : JVal :=
  JVal.jobj [("ShowDetails", JVal.jarr [JVal.jobj
    ((match p.venue with
      | none => []
      | some v => [("Venues", encodeVenue v)])
      ++ [("Event", JVal.jarr (p.events.map encodeEvent))])])]

/-- The sentinel policy the source applies to dimension and language:
strip, and replace a missing or empty result by `"UNKNOWN"`. -/
def sentinelStr (o : Option String) : String :=
  match o with
  | none => "UNKNOWN"
  | some s => if strTrim s = "" then "UNKNOWN" else strTrim s

/-- The capacity of a category, missing defaulting to 0. -/
def catMax (c : CatSpec) : ℤ :=
  c.maxSeats.getD 0

/-- The available seats of a category, missing defaulting to 0. -/
def catAvail (c : CatSpec) : ℤ :=
  c.seatsAvail.getD 0

/-- The price of a category, missing defaulting to 0. -/
def catPrice (c : CatSpec) : ℚ :=
  c.curPrice.getD 0

/-- The record the parser emits for one surviving show-time entry of a
well-typed payload. -/
def specShow (vn va chain title dim lang : String) (s : ShowSpec) : ShowRecord :=
  { movie := title, venue := vn, address := va, language := lang
    dimension := dim, chain := chain, time := s.showTime.getD ""
    audi := s.attrs.getD ""
    session_id := match s.sessionId with | none => "" | some n => toString n
    totalSeats := (s.cats.map catMax).sum
    available := (s.cats.map catAvail).sum
    sold := (s.cats.map fun c => catMax c - catAvail c).sum
    gross := pyRound2 ((s.cats.map fun c => (catMax c - catAvail c) * catPrice c).sum)
    city := "", state := "", source := "", date := "" }

/-- The venue name of a well-typed payload, with the source's defaults. -/
def specVenueName (p : PayloadSpec) : String :=
  match p.venue with
  | none => ""
  | some v => v.name.getD ""

/-- The venue address of a well-typed payload, with the source's defaults. -/
def specVenueAdd (p : PayloadSpec) : String :=
  match p.venue with
  | none => ""
  | some v => v.addr.getD ""

/-- The chain of a well-typed payload, with the source's defaults. -/
def specChain (p : PayloadSpec) : String :=
  match p.venue with
  | none => "Unknown"
  | some v => v.comp.getD "Unknown"

/-- The full record list the parser emits for a well-typed payload. -/
def specRecords (dc : String) (p : PayloadSpec) : List ShowRecord :=
  p.events.flatMap fun e =>
    e.childs.flatMap fun c =>
      (c.shows.filter fun s => decide (s.dateCode = some dc)).map
        (specShow (specVenueName p) (specVenueAdd p) (specChain p)
          (e.title.getD "Unknown") (sentinelStr c.dim) (sentinelStr c.lang))

/-- The per-venue tagging step of the orchestrator loop: attach the venue's
externally supplied city and state, the fixed source tag and the date code
to a parsed record. -/
def tagRecord (city state source date : String) (r : ShowRecord) : ShowRecord :=
  { r with city := city, state := state, source := source, date := date }

/-- Scenario A: one venue, one movie, one show, categories
`[(MaxSeats 100, SeatsAvail 2, CurPrice 200)]` on the target date. -/
def scenarioASpec : PayloadSpec :=
  PayloadSpec.mk
    (some (VenueSpec.mk (some "V1") (some "A1") (some "PVR")))
    [EventSpec.mk (some "M")
      [ChildSpec.mk (some "2D") (some "Hindi")
        [ShowSpec.mk (some "20260101") (some "10:00") (some "Audi 1") (some 1)
          [CatSpec.mk (some 100) (some 2) (some 200)]]]]

/-- Scenario A as a JSON payload. -/
def scenarioAPayload : JVal :=
  mkPayload scenarioASpec

/-- The record Scenario A parses to. -/
def scenarioARec : ShowRecord :=
  { movie := "M", venue := "V1", address := "A1", language := "Hindi"
    dimension := "2D", chain := "PVR", time := "10:00", audi := "Audi 1"
    session_id := "1", totalSeats := 100, available := 2, sold := 98
    gross := 19600, city := "", state := "", source := "", date := "" }

/-- A single category priced at 0.015 currency units: its gross sum is
3/200, which `round(., 2)` turns into 1/50 = 0.02. -/
def cexPriceCats : List CatSpec :=
  [CatSpec.mk (some 1) (some 0) (some (3 / 200))]

/-- A payload whose single show carries `cexPriceCats`. -/
def cexPriceSpec : PayloadSpec :=
  PayloadSpec.mk none
    [EventSpec.mk (some "M")
      [ChildSpec.mk (some "2D") (some "Hindi")
        [ShowSpec.mk (some "20260101") (some "10:00") (some "Audi 1") (some 1)
          cexPriceCats]]]

/-- The record `cexPriceSpec` parses to: its `gross` is the rounded 0.02,
not the exact category sum 0.015. -/
def cexPriceRec : ShowRecord :=
  { movie := "M", venue := "", address := "", language := "Hindi"
    dimension := "2D", chain := "Unknown", time := "10:00", audi := "Audi 1"
    session_id := "1", totalSeats := 1, available := 0, sold := 1
    gross := 1 / 50, city := "", state := "", source := "", date := "" }

/-- A payload whose single show-time entry has no `Attributes` field. -/
def c6Spec : PayloadSpec :=
  PayloadSpec.mk
    (some (VenueSpec.mk (some "V1") (some "A1") (some "PVR")))
    [EventSpec.mk (some "M")
      [ChildSpec.mk (some "2D") (some "Hindi")
        [ShowSpec.mk (some "20260101") (some "10:00") none (some 1) []]]]

/-- The `c6Spec` payload as JSON; note the absent `Attributes`. -/
def c6Payload : JVal :=
  mkPayload c6Spec

/-- The record `c6Payload` parses to: its `audi` is the empty string, not
the `"UNKNOWN"` sentinel. -/
def c6Rec : ShowRecord :=
  { movie := "M", venue := "V1", address := "A1", language := "Hindi"
    dimension := "2D", chain := "PVR", time := "10:00", audi := ""
    session_id := "1", totalSeats := 0, available := 0, sold := 0
    gross := 0, city := "", state := "", source := "", date := "" }

/-- A syntactically valid JSON payload whose `MaxSeats` holds a non-numeric
string: `int("N/A")` raises `ValueError` inside the parser. -/
def c7Payload : JVal :=
  JVal.jobj [("ShowDetails", JVal.jarr [JVal.jobj
    [("Event", JVal.jarr [JVal.jobj
      [("ChildEvents", JVal.jarr [JVal.jobj
        [("ShowTimes", JVal.jarr [JVal.jobj
          [("ShowDateCode", JVal.jstr "20260101"),
           ("Categories", JVal.jarr [JVal.jobj
             [("MaxSeats", JVal.jstr "N/A")]])]])]])]])]])]

/-- The payload Scenario A's counterexample twin for C4: more seats
available than capacity (`SeatsAvail 200 > MaxSeats 100`). -/
def badSpec : PayloadSpec :=
  PayloadSpec.mk
    (some (VenueSpec.mk (some "V1") (some "A1") (some "PVR")))
    [EventSpec.mk (some "M")
      [ChildSpec.mk (some "2D") (some "Hindi")
        [ShowSpec.mk (some "20260101") (some "10:00") (some "Audi 1") (some 1)
          [CatSpec.mk (some 100) (some 200) (some 0)]]]]

/-- The `badSpec` payload as JSON. -/
def badPayload : JVal :=
  mkPayload badSpec

/-- The record `badPayload` parses to (before tagging): `sold = -100`. -/
def badParsed : ShowRecord :=
  { movie := "M", venue := "V1", address := "A1", language := "Hindi"
    dimension := "2D", chain := "PVR", time := "10:00", audi := "Audi 1"
    session_id := "1", totalSeats := 100, available := 200, sold := -100
    gross := 0, city := "", state := "", source := "", date := "" }

end BMS

namespace BMS

theorem firstsBy_nil {α κ : Type} [DecidableEq κ] (k : α → κ) :
    firstsBy k ([] : List α) = [] := by
  simp [firstsBy]

theorem firstsBy_cons {α κ : Type} [DecidableEq κ] (k : α → κ) (a : α) (l : List α) :
    firstsBy k (a :: l) = a :: firstsBy k (l.filter fun b => decide (k b ≠ k a)) := by
  rw [firstsBy]

theorem firstsBy_sublist {α κ : Type} [DecidableEq κ] (k : α → κ) :
    ∀ l : List α, List.Sublist (firstsBy k l) l
  | [] => by simp [firstsBy]
  | a :: l => by
    rw [firstsBy_cons]
    exact List.Sublist.cons₂ a
      ((firstsBy_sublist k (l.filter fun b => decide (k b ≠ k a))).trans
        (List.filter_sublist l))
termination_by l => l.length
decreasing_by
  simp only [List.length_cons]
  exact Nat.lt_succ_of_le (List.length_filter_le _ _)

theorem mem_firstsBy_key_ne {α κ : Type} [DecidableEq κ] (k : α → κ) (a : α) (l : List α)
    {b : α} (hb : b ∈ firstsBy k (l.filter fun x => decide (k x ≠ k a))) :
    k b ≠ k a := by
  have hmem := (firstsBy_sublist k _).mem hb
  have := List.of_mem_filter hmem
  simpa using this

theorem firstsBy_pairwise {α κ : Type} [DecidableEq κ] (k : α → κ) :
    ∀ l : List α, (firstsBy k l).Pairwise fun x y => k x ≠ k y
  | [] => by simp [firstsBy]
  | a :: l => by
    rw [firstsBy_cons]
    refine List.Pairwise.cons ?_ (firstsBy_pairwise k _)
    intro b hb
    exact Ne.symm (mem_firstsBy_key_ne k a l hb)
termination_by l => l.length
decreasing_by
  simp only [List.length_cons]
  exact Nat.lt_succ_of_le (List.length_filter_le _ _)

theorem dedupeAux_eq_firstsBy (seen : List (String × String × String × String)) :
    ∀ rows : List ShowRecord,
      dedupeAux seen rows = firstsBy rkey (rows.filter fun r => decide (rkey r ∉ seen))
  | [] => by simp [dedupeAux, firstsBy]
  | r :: rows => by
    by_cases h : rkey r ∈ seen
    · rw [dedupeAux, if_pos h, List.filter_cons_of_neg (by simpa using h)]
      exact dedupeAux_eq_firstsBy seen rows
    · rw [dedupeAux, if_neg h, List.filter_cons_of_pos (by simpa using h), firstsBy_cons]
      rw [dedupeAux_eq_firstsBy (rkey r :: seen) rows, List.filter_filter]
      have hf : (rows.filter fun x => decide (rkey x ∉ rkey r :: seen))
          = rows.filter fun a => decide (rkey a ≠ rkey r) && decide (rkey a ∉ seen) := by
        apply List.filter_congr
        intro x _
        by_cases hx : rkey x = rkey r <;> simp [hx, h]
      rw [hf]

/-- C1 -- `dedupe` is stable first-seen-wins on the composite key
`(venue, time, session_id, audi)`: it equals the canonical first-occurrence
selection `firstsBy rkey`, it is a subsequence of its input (hence
order-preserving), and its output has pairwise distinct keys.  Being a plain
Lean function of its argument, it is pure. -/
theorem dedupe_first_seen_wins (rows : List ShowRecord) :
    dedupe rows = firstsBy rkey rows ∧
    List.Sublist (dedupe rows) rows ∧
    (dedupe rows).Pairwise fun a b => rkey a ≠ rkey b := by
  have h : dedupe rows = firstsBy rkey rows := by
    rw [dedupe, dedupeAux_eq_firstsBy]
    congr 1
    simp
  refine ⟨h, ?_, ?_⟩
  · rw [h]; exact firstsBy_sublist rkey rows
  · rw [h]; exact firstsBy_pairwise rkey rows

section Engine

variable {α κ β : Type} [DecidableEq κ]

@[simp] theorem bfold_nil (step : α → β → β) (b : β) : bfold step b [] = b := rfl

@[simp] theorem bfold_cons (step : α → β → β) (b : β) (a : α) (l : List α) :
    bfold step b (a :: l) = bfold step (step a b) l := rfl

@[simp] theorem groupFold_nil (key : α → κ) (init : β) (step : α → β → β)
    (s : List (κ × β)) : groupFold key init step s [] = s := rfl

@[simp] theorem groupFold_cons (key : α → κ) (init : β) (step : α → β → β)
    (s : List (κ × β)) (a : α) (l : List α) :
    groupFold key init step s (a :: l)
      = groupFold key init step (upsert (key a) init (step a) s) l := rfl

theorem lookupA_upsert_self (k : κ) (init : β) (f : β → β) (s : List (κ × β)) :
    lookupA k (upsert k init f s) = some (f ((lookupA k s).getD init)) := by
  induction s with
  | nil => simp [upsert, lookupA]
  | cons p rest ih =>
    obtain ⟨k', v⟩ := p
    by_cases h : k' = k
    · subst h; simp [upsert, lookupA]
    · simp [upsert, lookupA, h, ih]

theorem keys_upsert_of_mem {k : κ} {s : List (κ × β)} (init : β) (f : β → β)
    (h : k ∈ s.map Prod.fst) :
    (upsert k init f s).map Prod.fst = s.map Prod.fst := by
  induction s with
  | nil => simp at h
  | cons p rest ih =>
    obtain ⟨k', v⟩ := p
    by_cases hk : k' = k
    · simp [upsert, hk]
    · have : k ∈ rest.map Prod.fst := by
        rcases List.mem_map.1 h with ⟨q, hq, hq1⟩
        rcases List.mem_cons.1 hq with hq | hq
        · exact absurd (by simpa [hq] using hq1) hk
        · exact List.mem_map.2 ⟨q, hq, hq1⟩
      simp [upsert, hk, ih this]

theorem upsert_of_not_mem {k : κ} {s : List (κ × β)} (init : β) (f : β → β)
    (h : k ∉ s.map Prod.fst) :
    upsert k init f s = s ++ [(k, f init)] := by
  induction s with
  | nil => simp [upsert]
  | cons p rest ih =>
    obtain ⟨k', v⟩ := p
    have hk : k' ≠ k := by
      intro hk; exact h (by simp [hk])
    have hrest : k ∉ rest.map Prod.fst := by
      intro hr; exact h (by simp [hr])
    simp [upsert, hk, ih hrest]

theorem upsert_of_mem_nodup {k : κ} {s : List (κ × β)} (init : β) (f : β → β)
    (hn : (s.map Prod.fst).Nodup) (h : k ∈ s.map Prod.fst) :
    upsert k init f s = s.map fun p => if p.1 = k then (p.1, f p.2) else p := by
  induction s with
  | nil => simp at h
  | cons p rest ih =>
    obtain ⟨k', v⟩ := p
    by_cases hk : k' = k
    · subst hk
      rw [List.map_cons] at hn
      have hnotin : ∀ q ∈ rest, q.1 ≠ k' := by
        intro q hq
        have hni := (List.nodup_cons.1 hn).1
        intro hq1
        exact hni (List.mem_map.2 ⟨q, hq, hq1⟩)
      have : rest.map (fun p => if p.1 = k' then (p.1, f p.2) else p) = rest := by
        apply List.map_congr_left ?_ |>.trans (List.map_id rest)
        intro q hq
        simp [hnotin q hq]
      simp [upsert, this]
    · have hmem : k ∈ rest.map Prod.fst := by
        rcases List.mem_map.1 h with ⟨q, hq, hq1⟩
        rcases List.mem_cons.1 hq with hq | hq
        · exact absurd (by simpa [hq] using hq1) hk
        · exact List.mem_map.2 ⟨q, hq, hq1⟩
      rw [List.map_cons] at hn
      have hn' : (rest.map Prod.fst).Nodup := (List.nodup_cons.1 hn).2
      simp [upsert, hk, ih hn' hmem]

theorem mem_firstsBy_filter_prop {p : α → Prop} [DecidablePred p] {l : List α}
    {k : α → κ} {a : α} (ha : a ∈ firstsBy k (l.filter fun b => decide (p b))) :
    p a := by
  have := (firstsBy_sublist k _).mem ha
  simpa using List.of_mem_filter this

/-- Structure of a group-by fold: entries of `s` are updated in place by the
matching elements, and the remaining keys are appended in order of first
appearance, each folded from `init` over its own elements. -/
theorem groupFold_eq (key : α → κ) (init : β) (step : α → β → β) :
    ∀ (l : List α) (s : List (κ × β)), (s.map Prod.fst).Nodup →
      groupFold key init step s l =
        (s.map fun p => (p.1, bfold step p.2 (l.filter fun b => decide (key b = p.1))))
        ++ ((firstsBy key (l.filter fun b => decide (key b ∉ s.map Prod.fst))).map
            fun a => (key a, bfold step init (l.filter fun b => decide (key b = key a))))
  | [], s, hs => by
    simp [firstsBy]
  | a :: t, s, hs => by
    rw [groupFold_cons]
    by_cases hmem : key a ∈ s.map Prod.fst
    · have hkeys := keys_upsert_of_mem (s := s) init (step a) hmem
      have hs' : ((upsert (key a) init (step a) s).map Prod.fst).Nodup := by
        rw [hkeys]; exact hs
      rw [groupFold_eq key init step t _ hs', hkeys,
        upsert_of_mem_nodup init (step a) hs hmem, List.map_map]
      congr 1
      · apply List.map_congr_left
        intro p hp
        by_cases hp1 : p.1 = key a
        · have : (a :: t).filter (fun b => decide (key b = p.1))
              = a :: t.filter fun b => decide (key b = p.1) := by
            rw [List.filter_cons_of_pos (by simp [hp1])]
          simp [Function.comp, hp1, this]
        · have : (a :: t).filter (fun b => decide (key b = p.1))
              = t.filter fun b => decide (key b = p.1) := by
            rw [List.filter_cons_of_neg]
            simp
            intro h; exact hp1 h.symm
          simp [Function.comp, hp1, this]
      · have hft : (a :: t).filter (fun b => decide (key b ∉ s.map Prod.fst))
            = t.filter fun b => decide (key b ∉ s.map Prod.fst) := by
          rw [List.filter_cons_of_neg (by simpa using hmem)]
        rw [hft]
        apply List.map_congr_left
        intro x hx
        have hxnot : key x ∉ s.map Prod.fst :=
          mem_firstsBy_filter_prop (p := fun b => key b ∉ s.map Prod.fst) hx
        have hxa : key a ≠ key x := fun h => hxnot (h ▸ hmem)
        rw [List.filter_cons_of_neg (by simpa using hxa)]
    · rw [upsert_of_not_mem init (step a) hmem]
      have hs' : (((s ++ [(key a, step a init)]).map Prod.fst)).Nodup := by
        rw [List.map_append]
        simp only [List.map_cons, List.map_nil]
        rw [List.nodup_append]
        exact ⟨hs, List.nodup_singleton _, by simpa using fun h => hmem h⟩
      rw [groupFold_eq key init step t _ hs']
      have hfa : (a :: t).filter (fun b => decide (key b ∉ s.map Prod.fst))
          = a :: t.filter fun b => decide (key b ∉ s.map Prod.fst) := by
        rw [List.filter_cons_of_pos (by simpa using hmem)]
      rw [hfa, firstsBy_cons, List.map_cons]
      have hff : ((t.filter fun b => decide (key b ∉ s.map Prod.fst)).filter
            fun b => decide (key b ≠ key a))
          = t.filter fun b => decide (key b ∉ (s ++ [(key a, step a init)]).map Prod.fst) := by
        rw [List.filter_filter]
        apply List.filter_congr
        intro x _
        by_cases h1 : key x ∈ s.map Prod.fst <;> by_cases h2 : key x = key a <;>
          simp [h1, h2]
      rw [hff, List.map_append, List.append_assoc]
      congr 1
      · apply List.map_congr_left
        intro p hp
        have hp1 : key a ≠ p.1 := fun h => hmem (h ▸ List.mem_map.2 ⟨p, hp, rfl⟩)
        rw [List.filter_cons_of_neg (by simpa using hp1)]
      · simp only [List.map_cons, List.map_nil, List.singleton_append]
        congr 1
        · rw [List.filter_cons_of_pos (by simp)]
          rfl
        · apply List.map_congr_left
          intro x hx
          have hxnot : key x ∉ (s ++ [(key a, step a init)]).map Prod.fst :=
            mem_firstsBy_filter_prop
              (p := fun b => key b ∉ (s ++ [(key a, step a init)]).map Prod.fst) hx
          have hxa : key a ≠ key x := by
            intro h
            exact hxnot (by simp [h.symm])
          rw [List.filter_cons_of_neg (by simpa using hxa)]

/-- Group-by fold from the empty dict: one entry per distinct key, in order
of first appearance, each folded from `init` over the elements of its key. -/
theorem groupFold_nil_eq (key : α → κ) (init : β) (step : α → β → β) (l : List α) :
    groupFold key init step [] l
      = (firstsBy key l).map
          fun a => (key a, bfold step init (l.filter fun b => decide (key b = key a))) := by
  have h := groupFold_eq key init step l [] (by simp)
  simpa using h

end Engine

section ClosedForms

/-- Closed form of a sub-bucket fold: start value plus the canonical
order-insensitive content `dbOf`. -/
theorem bfold_stepD_eq (l : List ShowRecord) : ∀ d0 : DBucket,
    bfold stepD d0 l =
      { venues := d0.venues ∪ (dbOf l).venues
        shows := d0.shows + (dbOf l).shows
        gross := d0.gross + (dbOf l).gross
        sold := d0.sold + (dbOf l).sold
        totalSeats := d0.totalSeats + (dbOf l).totalSeats
        fastfilling := d0.fastfilling + (dbOf l).fastfilling
        housefull := d0.housefull + (dbOf l).housefull } := by
  induction l with
  | nil => intro d0; simp [dbOf]
  | cons a t ih =>
    intro d0
    rw [bfold_cons, ih]
    simp only [stepD, updDB, dbOf, List.map_cons, List.toFinset_cons,
      List.length_cons, List.sum_cons, List.countP_cons, DBucket.mk.injEq]
    by_cases h98 : 98 ≤ occR a <;> by_cases h50 : 50 ≤ occR a <;>
      simp [h98, h50, Finset.union_insert, Finset.insert_union] <;>
      (repeat' apply And.intro) <;> first | rfl | omega | ring

/-- Closed form of the per-movie fold: scalar fields are start value plus an
order-insensitive quantity; the three sub-rollup dicts are group-by folds. -/
theorem bfold_stepMovie_eq (l : List ShowRecord) : ∀ m0 : MovieAgg,
    bfold stepMovie m0 l =
      { shows := m0.shows + l.length
        gross := m0.gross + (l.map ShowRecord.gross).sum
        sold := m0.sold + (l.map ShowRecord.sold).sum
        totalSeats := m0.totalSeats + (l.map ShowRecord.totalSeats).sum
        venues := m0.venues ∪ (l.map ShowRecord.venue).toFinset
        cities := m0.cities ∪ (l.map ShowRecord.city).toFinset
        housefull := m0.housefull + (l.countP fun r => decide (98 ≤ occR r))
        fastfilling :=
          m0.fastfilling + (l.countP fun r => decide (¬ 98 ≤ occR r ∧ 50 ≤ occR r))
        details := groupFold (fun r => (r.city, r.state)) initD stepD m0.details l
        lang_details := groupFold ShowRecord.language initD stepD m0.lang_details l
        fmt_details := groupFold ShowRecord.dimension initD stepD m0.fmt_details l } := by
  induction l with
  | nil => intro m0; simp
  | cons a t ih =>
    intro m0
    rw [bfold_cons, ih, groupFold_cons, groupFold_cons, groupFold_cons]
    simp only [stepMovie, stepD, List.map_cons, List.toFinset_cons,
      List.length_cons, List.sum_cons, List.countP_cons, MovieAgg.mk.injEq]
    by_cases h98 : 98 ≤ occR a <;> by_cases h50 : 50 ≤ occR a <;>
      simp [h98, h50, Finset.union_insert, Finset.insert_union] <;>
      (repeat' apply And.intro) <;> first | rfl | omega | ring

/-- `aggregate` is a group-by fold on the movie title. -/
theorem aggregate_eq_groupFold (rows : List ShowRecord) :
    aggregate rows = groupFold (fun r => r.movie) initMovie stepMovie [] rows := rfl

/-- Summing a mapped quantity over a partition of a list into the matching
and non-matching part of a Boolean filter recovers the total. -/
theorem sum_map_filter_not {α M : Type} [AddCommMonoid M] (p : α → Bool) (f : α → M)
    (l : List α) :
    ((l.filter p).map f).sum + ((l.filter fun a => !p a).map f).sum = (l.map f).sum := by
  induction l with
  | nil => simp
  | cons a t ih =>
    by_cases h : p a = true
    · rw [List.filter_cons_of_pos h, List.filter_cons_of_neg (by simp [h])]
      simp only [List.map_cons, List.sum_cons]
      rw [add_assoc, ih]

    · rw [List.filter_cons_of_neg (by simp at h; simp [h]),
        List.filter_cons_of_pos (by simp at h; simp [h])]
      simp only [List.map_cons, List.sum_cons]
      rw [add_left_comm, ih]

/-- Summing, over the distinct keys of `l` in first-appearance order, the
`f`-total of the elements with that key recovers the `f`-total of `l`. -/
theorem sum_partition {α κ M : Type} [DecidableEq κ] [AddCommMonoid M]
    (k : α → κ) (f : α → M) :
    ∀ (n : ℕ) (l : List α), l.length ≤ n →
      ((firstsBy k l).map fun a =>
        ((l.filter fun b => decide (k b = k a)).map f).sum).sum = (l.map f).sum := by
  intro n
  induction n with
  | zero =>
    intro l hl
    have : l = [] := List.eq_nil_of_length_eq_zero (Nat.le_zero.1 hl)
    subst this
    simp [firstsBy]
  | succ n ih =>
    intro l hl
    match l with
    | [] => simp [firstsBy]
    | a :: t =>
      rw [firstsBy_cons, List.map_cons, List.sum_cons]
      rw [List.filter_cons_of_pos (by simp)]
      have hcong : ((firstsBy k (t.filter fun b => decide (k b ≠ k a))).map fun x =>
            (((a :: t).filter fun b => decide (k b = k x)).map f).sum)
          = (firstsBy k (t.filter fun b => decide (k b ≠ k a))).map fun x =>
            (((t.filter fun b => decide (k b ≠ k a)).filter
              fun b => decide (k b = k x)).map f).sum := by
        apply List.map_congr_left
        intro x hx
        have hxa : k x ≠ k a :=
          mem_firstsBy_filter_prop (p := fun b => k b ≠ k a) hx
        rw [List.filter_cons_of_neg (by simpa using fun h => hxa h.symm)]
        congr 2
        rw [List.filter_filter]
        apply List.filter_congr
        intro y _
        by_cases hy : k y = k x <;> simp [hy, hxa]
      rw [hcong]
      have hlen : (t.filter fun b => decide (k b ≠ k a)).length ≤ n :=
        le_trans (List.length_filter_le _ _) (Nat.le_of_succ_le_succ (by simpa using hl))
      rw [ih _ hlen]
      have hsplit := sum_map_filter_not (fun b => decide (k b = k a)) f t
      have hnot : (t.filter fun b => !decide (k b = k a))
          = t.filter fun b => decide (k b ≠ k a) := by
        apply List.filter_congr
        intro y _
        simp
      rw [hnot] at hsplit
      simp only [List.map_cons, List.sum_cons]
      rw [← hsplit, add_assoc]

/-- Summing the size 1 constant recovers the length. -/
theorem sum_map_one {α : Type} (l : List α) : (l.map fun _ => (1 : ℕ)).sum = l.length := by
  induction l with
  | nil => rfl
  | cons a t ih => simp [ih, Nat.add_comm]

/-- Summing, over the distinct keys in first-appearance order, the number of
elements with that key recovers the length. -/
theorem sum_partition_length {α κ : Type} [DecidableEq κ] (k : α → κ) (l : List α) :
    ((firstsBy k l).map fun a =>
      (l.filter fun b => decide (k b = k a)).length).sum = l.length := by
  have h1 := sum_partition k (fun _ => (1 : ℕ)) l.length l le_rfl
  rw [sum_map_one] at h1
  rw [← h1]
  apply congrArg
  apply List.map_congr_left
  intro a _
  rw [sum_map_one]

/-- Every membership in `finalSummary` comes from a first-appearance movie
representative, with the finalized fold of that movie's records as value. -/
theorem mem_finalSummary {rows : List ShowRecord} {mv : String} {fm : FinalMovie}
    (h : (mv, fm) ∈ finalSummary rows) :
    ∃ a, a ∈ firstsBy (fun r => r.movie) rows ∧ mv = a.movie ∧
      fm = finalizeMovie (bfold stepMovie initMovie
        (rows.filter fun b => decide (b.movie = a.movie))) := by
  unfold finalSummary at h
  rw [aggregate_eq_groupFold, groupFold_nil_eq, List.map_map] at h
  rcases List.mem_map.1 h with ⟨a, ha, hEq⟩
  simp only [Function.comp] at hEq
  cases hEq
  exact ⟨a, ha, rfl, rfl⟩

/-- The three conserved fields of a finalized sub-rollup, summed over all
its entries, recover the totals of the record list it was built from. -/
theorem detail_field_sums {κ : Type} [DecidableEq κ] (k : ShowRecord → κ)
    (l : List ShowRecord) :
    (((firstsBy k l).map fun a =>
        (bfold stepD initD (l.filter fun b => decide (k b = k a))).shows).sum = l.length)
    ∧ (((firstsBy k l).map fun a =>
        (bfold stepD initD (l.filter fun b => decide (k b = k a))).sold).sum
          = (l.map ShowRecord.sold).sum)
    ∧ (((firstsBy k l).map fun a =>
        (bfold stepD initD (l.filter fun b => decide (k b = k a))).totalSeats).sum
          = (l.map ShowRecord.totalSeats).sum) := by
  refine ⟨?_, ?_, ?_⟩
  · rw [← sum_partition_length k l]
    apply congrArg
    apply List.map_congr_left
    intro a _
    rw [bfold_stepD_eq]
    simp [initD, dbOf]
  · rw [← sum_partition k ShowRecord.sold l.length l le_rfl]
    apply congrArg
    apply List.map_congr_left
    intro a _
    rw [bfold_stepD_eq]
    simp [initD, dbOf]
  · rw [← sum_partition k ShowRecord.totalSeats l.length l le_rfl]
    apply congrArg
    apply List.map_congr_left
    intro a _
    rw [bfold_stepD_eq]
    simp [initD, dbOf]

/-- The three finalized detail arrays of a movie, as maps over the distinct
sub-keys of the movie's record list. -/
theorem finalize_details_eq (l : List ShowRecord) :
    (finalizeMovie (bfold stepMovie initMovie l)).City_details
      = (firstsBy (fun r => (r.city, r.state)) l).map (fun a =>
          finalizeCityD a.city a.state
            (bfold stepD initD (l.filter fun b =>
              decide ((b.city, b.state) = (a.city, a.state)))))
    ∧ (finalizeMovie (bfold stepMovie initMovie l)).Language_details
      = (firstsBy ShowRecord.language l).map (fun a =>
          finalizeDimD a.language
            (bfold stepD initD (l.filter fun b => decide (b.language = a.language))))
    ∧ (finalizeMovie (bfold stepMovie initMovie l)).Format_details
      = (firstsBy ShowRecord.dimension l).map (fun a =>
          finalizeDimD a.dimension
            (bfold stepD initD (l.filter fun b => decide (b.dimension = a.dimension)))) := by
  rw [bfold_stepMovie_eq]
  refine ⟨?_, ?_, ?_⟩
  · show (groupFold (fun r => (r.city, r.state)) initD stepD initMovie.details l).map _ = _
    rw [show initMovie.details = [] from rfl, groupFold_nil_eq, List.map_map]
    apply List.map_congr_left
    intro a _
    rfl
  · show (groupFold ShowRecord.language initD stepD initMovie.lang_details l).map _ = _
    rw [show initMovie.lang_details = [] from rfl, groupFold_nil_eq, List.map_map]
    apply List.map_congr_left
    intro a _
    rfl
  · show (groupFold ShowRecord.dimension initD stepD initMovie.fmt_details l).map _ = _
    rw [show initMovie.fmt_details = [] from rfl, groupFold_nil_eq, List.map_map]
    apply List.map_congr_left
    intro a _
    rfl

end ClosedForms

/-- C2 -- Bucket sum conservation: for every movie of the final summary, the
sums of `shows`, `sold` and `totalSeats` over its `City_details` entries
equal the movie-level totals, and likewise over `Language_details` and
`Format_details`. -/
theorem bucket_sum_conservation (rows : List ShowRecord) (mv : String) (fm : FinalMovie)
    (h : (mv, fm) ∈ finalSummary rows) :
    ((fm.City_details.map FinalCityD.shows).sum = fm.shows
      ∧ (fm.City_details.map FinalCityD.sold).sum = fm.sold
      ∧ (fm.City_details.map FinalCityD.totalSeats).sum = fm.totalSeats)
    ∧ ((fm.Language_details.map FinalDimD.shows).sum = fm.shows
      ∧ (fm.Language_details.map FinalDimD.sold).sum = fm.sold
      ∧ (fm.Language_details.map FinalDimD.totalSeats).sum = fm.totalSeats)
    ∧ ((fm.Format_details.map FinalDimD.shows).sum = fm.shows
      ∧ (fm.Format_details.map FinalDimD.sold).sum = fm.sold
      ∧ (fm.Format_details.map FinalDimD.totalSeats).sum = fm.totalSeats) := by
  rcases mem_finalSummary h with ⟨a, _, _, hfm⟩
  subst hfm
  set l : List ShowRecord := rows.filter fun b => decide (b.movie = a.movie) with hl
  have hshows : (finalizeMovie (bfold stepMovie initMovie l)).shows = l.length := by
    rw [bfold_stepMovie_eq]; simp [finalizeMovie, initMovie]
  have hsold : (finalizeMovie (bfold stepMovie initMovie l)).sold
      = (l.map ShowRecord.sold).sum := by
    rw [bfold_stepMovie_eq]; simp [finalizeMovie, initMovie]
  have htot : (finalizeMovie (bfold stepMovie initMovie l)).totalSeats
      = (l.map ShowRecord.totalSeats).sum := by
    rw [bfold_stepMovie_eq]; simp [finalizeMovie, initMovie]
  rcases finalize_details_eq l with ⟨hc, hlang, hfmt⟩
  rw [hshows, hsold, htot, hc, hlang, hfmt]
  have hcity := detail_field_sums (fun r => (r.city, r.state)) l
  have hlng := detail_field_sums ShowRecord.language l
  have hfm2 := detail_field_sums ShowRecord.dimension l
  refine ⟨⟨?_, ?_, ?_⟩, ⟨?_, ?_, ?_⟩, ⟨?_, ?_, ?_⟩⟩ <;>
    rw [List.map_map] <;>
    first
      | (rw [← hcity.1]; rfl) | (rw [← hcity.2.1]; rfl) | (rw [← hcity.2.2]; rfl)
      | (rw [← hlng.1]; rfl) | (rw [← hlng.2.1]; rfl) | (rw [← hlng.2.2]; rfl)
      | (rw [← hfm2.1]; rfl) | (rw [← hfm2.2.1]; rfl) | (rw [← hfm2.2.2]; rfl)

/-- A sub-bucket fold from a fresh bucket gives exactly the canonical
order-insensitive content. -/
theorem bfold_stepD_initD (l : List ShowRecord) : bfold stepD initD l = dbOf l := by
  rw [bfold_stepD_eq]
  simp [initD, dbOf]

/-- Permuted lists have the same `toFinset`. -/
theorem perm_toFinset {α : Type} [DecidableEq α] {l1 l2 : List α} (h : l1.Perm l2) :
    l1.toFinset = l2.toFinset := by
  ext a
  simp [List.mem_toFinset, h.mem_iff]

/-- The canonical sub-bucket content only depends on the multiset of
records. -/
theorem dbOf_perm {l1 l2 : List ShowRecord} (hp : l1.Perm l2) : dbOf l1 = dbOf l2 := by
  unfold dbOf
  rw [hp.length_eq, perm_toFinset (hp.map ShowRecord.venue),
    (hp.map ShowRecord.gross).sum_eq, (hp.map ShowRecord.sold).sum_eq,
    (hp.map ShowRecord.totalSeats).sum_eq, hp.countP_eq, hp.countP_eq]

/-- A key appears among the first-occurrence representatives exactly when it
appears in the list. -/
theorem mem_map_key_firstsBy {α κ : Type} [DecidableEq κ] (k : α → κ) :
    ∀ (l : List α) (c : κ), c ∈ (firstsBy k l).map k ↔ c ∈ l.map k
  | [], _ => by simp [firstsBy]
  | a :: t, c => by
    rw [firstsBy_cons]
    by_cases hc : c = k a
    · simp [hc]
    · simp only [List.map_cons, List.mem_cons]
      rw [or_iff_right (by simpa using hc), or_iff_right (by simpa using hc)]
      rw [mem_map_key_firstsBy k (t.filter fun b => decide (k b ≠ k a)) c]
      constructor
      · intro hm
        rcases List.mem_map.1 hm with ⟨x, hx, hxc⟩
        exact List.mem_map.2 ⟨x, (List.filter_sublist t).mem hx, hxc⟩
      · intro hm
        rcases List.mem_map.1 hm with ⟨x, hx, hxc⟩
        refine List.mem_map.2 ⟨x, List.mem_filter.2 ⟨hx, by simp [hxc, hc]⟩, hxc⟩
termination_by l => l.length
decreasing_by
  simp only [List.length_cons]
  exact Nat.lt_succ_of_le (List.length_filter_le _ _)

/-- The keys of the first-occurrence representatives are distinct. -/
theorem keys_firstsBy_nodup {α κ : Type} [DecidableEq κ] (k : α → κ) (l : List α) :
    ((firstsBy k l).map k).Nodup :=
  List.Pairwise.map k (fun _ _ h => h) (firstsBy_pairwise k l)

/-- Permuting the records permutes the distinct-key list. -/
theorem keys_firstsBy_perm {α κ : Type} [DecidableEq κ] (k : α → κ)
    {l1 l2 : List α} (hp : l1.Perm l2) :
    ((firstsBy k l1).map k).Perm ((firstsBy k l2).map k) := by
  rw [List.perm_ext_iff_of_nodup (keys_firstsBy_nodup k l1) (keys_firstsBy_nodup k l2)]
  intro c
  rw [mem_map_key_firstsBy, mem_map_key_firstsBy]
  exact (hp.map k).mem_iff

/-- Finalized detail arrays built from permuted record lists are permutations
of each other. -/
theorem detail_map_perm {κ γ : Type} [DecidableEq κ] (k : ShowRecord → κ)
    (F : κ → DBucket → γ) {l1 l2 : List ShowRecord} (hp : l1.Perm l2) :
    ((firstsBy k l1).map fun a =>
      F (k a) (bfold stepD initD (l1.filter fun b => decide (k b = k a)))).Perm
    ((firstsBy k l2).map fun a =>
      F (k a) (bfold stepD initD (l2.filter fun b => decide (k b = k a)))) := by
  have e1 : ((firstsBy k l1).map fun a =>
        F (k a) (bfold stepD initD (l1.filter fun b => decide (k b = k a))))
      = ((firstsBy k l1).map k).map fun c =>
        F c (bfold stepD initD (l1.filter fun b => decide (k b = c))) := by
    rw [List.map_map]; rfl
  have e2 : ((firstsBy k l2).map fun a =>
        F (k a) (bfold stepD initD (l2.filter fun b => decide (k b = k a))))
      = ((firstsBy k l2).map k).map fun c =>
        F c (bfold stepD initD (l2.filter fun b => decide (k b = c))) := by
    rw [List.map_map]; rfl
  rw [e1, e2]
  have hkeys := keys_firstsBy_perm k hp
  have hfun : ∀ c, F c (bfold stepD initD (l1.filter fun b => decide (k b = c)))
      = F c (bfold stepD initD (l2.filter fun b => decide (k b = c))) := by
    intro c
    rw [bfold_stepD_initD, bfold_stepD_initD, dbOf_perm (hp.filter _)]
  have h1 : (((firstsBy k l1).map k).map fun c =>
        F c (bfold stepD initD (l1.filter fun b => decide (k b = c)))).Perm
      (((firstsBy k l2).map k).map fun c =>
        F c (bfold stepD initD (l1.filter fun b => decide (k b = c)))) :=
    hkeys.map _
  have h2 : (((firstsBy k l2).map k).map fun c =>
        F c (bfold stepD initD (l1.filter fun b => decide (k b = c))))
      = ((firstsBy k l2).map k).map fun c =>
        F c (bfold stepD initD (l2.filter fun b => decide (k b = c))) :=
    List.map_congr_left fun c _ => hfun c
  exact h2 ▸ h1

/-- The movie keys of the final summary, in first-appearance order. -/
theorem finalSummary_keys (rows : List ShowRecord) :
    (finalSummary rows).map Prod.fst
      = (firstsBy (fun r => r.movie) rows).map fun a => a.movie := by
  unfold finalSummary
  rw [aggregate_eq_groupFold, groupFold_nil_eq, List.map_map, List.map_map]
  rfl

/-- Finalized movie summaries of permuted record lists agree on every scalar
field, and their detail arrays are permutations of each other. -/
theorem finalizeMovie_perm {l1 l2 : List ShowRecord} (hp : l1.Perm l2) :
    (finalizeMovie (bfold stepMovie initMovie l1)).shows
        = (finalizeMovie (bfold stepMovie initMovie l2)).shows
    ∧ (finalizeMovie (bfold stepMovie initMovie l1)).gross
        = (finalizeMovie (bfold stepMovie initMovie l2)).gross
    ∧ (finalizeMovie (bfold stepMovie initMovie l1)).sold
        = (finalizeMovie (bfold stepMovie initMovie l2)).sold
    ∧ (finalizeMovie (bfold stepMovie initMovie l1)).totalSeats
        = (finalizeMovie (bfold stepMovie initMovie l2)).totalSeats
    ∧ (finalizeMovie (bfold stepMovie initMovie l1)).venues
        = (finalizeMovie (bfold stepMovie initMovie l2)).venues
    ∧ (finalizeMovie (bfold stepMovie initMovie l1)).cities
        = (finalizeMovie (bfold stepMovie initMovie l2)).cities
    ∧ (finalizeMovie (bfold stepMovie initMovie l1)).fastfilling
        = (finalizeMovie (bfold stepMovie initMovie l2)).fastfilling
    ∧ (finalizeMovie (bfold stepMovie initMovie l1)).housefull
        = (finalizeMovie (bfold stepMovie initMovie l2)).housefull
    ∧ (finalizeMovie (bfold stepMovie initMovie l1)).occupancy
        = (finalizeMovie (bfold stepMovie initMovie l2)).occupancy
    ∧ (finalizeMovie (bfold stepMovie initMovie l1)).City_details.Perm
        (finalizeMovie (bfold stepMovie initMovie l2)).City_details
    ∧ (finalizeMovie (bfold stepMovie initMovie l1)).Language_details.Perm
        (finalizeMovie (bfold stepMovie initMovie l2)).Language_details
    ∧ (finalizeMovie (bfold stepMovie initMovie l1)).Format_details.Perm
        (finalizeMovie (bfold stepMovie initMovie l2)).Format_details := by
  have hsold : (l1.map ShowRecord.sold).sum = (l2.map ShowRecord.sold).sum :=
    (hp.map _).sum_eq
  have htot : (l1.map ShowRecord.totalSeats).sum = (l2.map ShowRecord.totalSeats).sum :=
    (hp.map _).sum_eq
  refine ⟨?_, ?_, ?_, ?_, ?_, ?_, ?_, ?_, ?_, ?_, ?_, ?_⟩
  · rw [bfold_stepMovie_eq, bfold_stepMovie_eq]
    simp [finalizeMovie, hp.length_eq]
  · rw [bfold_stepMovie_eq, bfold_stepMovie_eq]
    simp [finalizeMovie, (hp.map ShowRecord.gross).sum_eq]
  · rw [bfold_stepMovie_eq, bfold_stepMovie_eq]
    simp [finalizeMovie, hsold]
  · rw [bfold_stepMovie_eq, bfold_stepMovie_eq]
    simp [finalizeMovie, htot]
  · rw [bfold_stepMovie_eq, bfold_stepMovie_eq]
    simp [finalizeMovie, perm_toFinset (hp.map ShowRecord.venue)]
  · rw [bfold_stepMovie_eq, bfold_stepMovie_eq]
    simp [finalizeMovie, perm_toFinset (hp.map ShowRecord.city)]
  · rw [bfold_stepMovie_eq, bfold_stepMovie_eq]
    simp [finalizeMovie, hp.countP_eq]
  · rw [bfold_stepMovie_eq, bfold_stepMovie_eq]
    simp [finalizeMovie, hp.countP_eq]
  · rw [bfold_stepMovie_eq, bfold_stepMovie_eq]
    simp [finalizeMovie, hsold, htot]
  · rw [(finalize_details_eq l1).1, (finalize_details_eq l2).1]
    exact detail_map_perm (fun r => (r.city, r.state))
      (fun c d => finalizeCityD c.1 c.2 d) hp
  · rw [(finalize_details_eq l1).2.1, (finalize_details_eq l2).2.1]
    exact detail_map_perm ShowRecord.language (fun c d => finalizeDimD c d) hp
  · rw [(finalize_details_eq l1).2.2, (finalize_details_eq l2).2.2]
    exact detail_map_perm ShowRecord.dimension (fun c d => finalizeDimD c d) hp

/-- C8 -- Aggregation commutativity: aggregating any permutation of a record
sequence yields the same final summary up to ordering of the arrays: the
movie key lists are permutations of each other, and for every movie present
in both summaries all scalar fields agree and the three detail arrays are
equal as multisets.  Accumulation is a fold of commutative, associative
bucket updates and finalization is a pure transform of the buckets. -/
theorem aggregation_commutative (rows1 rows2 : List ShowRecord)
    (h : rows1.Perm rows2) :
    ((finalSummary rows1).map Prod.fst).Perm ((finalSummary rows2).map Prod.fst)
    ∧ ∀ mv fm1 fm2, (mv, fm1) ∈ finalSummary rows1 → (mv, fm2) ∈ finalSummary rows2 →
        fm1.shows = fm2.shows ∧ fm1.gross = fm2.gross ∧ fm1.sold = fm2.sold
        ∧ fm1.totalSeats = fm2.totalSeats ∧ fm1.venues = fm2.venues
        ∧ fm1.cities = fm2.cities ∧ fm1.fastfilling = fm2.fastfilling
        ∧ fm1.housefull = fm2.housefull ∧ fm1.occupancy = fm2.occupancy
        ∧ fm1.City_details.Perm fm2.City_details
        ∧ fm1.Language_details.Perm fm2.Language_details
        ∧ fm1.Format_details.Perm fm2.Format_details := by
  constructor
  · rw [finalSummary_keys, finalSummary_keys]
    exact keys_firstsBy_perm _ h
  · intro mv fm1 fm2 h1 h2
    rcases mem_finalSummary h1 with ⟨a1, _, hmv1, hfm1⟩
    rcases mem_finalSummary h2 with ⟨a2, _, hmv2, hfm2⟩
    have hk : a2.movie = a1.movie := by rw [← hmv1, ← hmv2]
    rw [hk] at hfm2
    have hperm : (rows1.filter fun b => decide (b.movie = a1.movie)).Perm
        (rows2.filter fun b => decide (b.movie = a1.movie)) := h.filter _
    rw [hfm1, hfm2]
    exact finalizeMovie_perm hperm

/-- Witness for C8 at a concrete transposition of two records. -/
theorem aggregation_commutative_witness :
    (sampleRows.Perm [sampleRec2, sampleRec1])
    ∧ (((finalSummary sampleRows).map Prod.fst).Perm
        ((finalSummary [sampleRec2, sampleRec1]).map Prod.fst)
      ∧ ∀ mv fm1 fm2, (mv, fm1) ∈ finalSummary sampleRows →
          (mv, fm2) ∈ finalSummary [sampleRec2, sampleRec1] →
          fm1.shows = fm2.shows ∧ fm1.gross = fm2.gross ∧ fm1.sold = fm2.sold
          ∧ fm1.totalSeats = fm2.totalSeats ∧ fm1.venues = fm2.venues
          ∧ fm1.cities = fm2.cities ∧ fm1.fastfilling = fm2.fastfilling
          ∧ fm1.housefull = fm2.housefull ∧ fm1.occupancy = fm2.occupancy
          ∧ fm1.City_details.Perm fm2.City_details
          ∧ fm1.Language_details.Perm fm2.Language_details
          ∧ fm1.Format_details.Perm fm2.Format_details) :=
  ⟨by decide, aggregation_commutative sampleRows [sampleRec2, sampleRec1] (by decide)⟩

/-- One summary-loop step rewrites the touched movie bucket by `stepMovie`. -/
theorem movieAfter_eq (s : List (String × MovieAgg)) (r : ShowRecord) :
    movieAfter s r = stepMovie r (movieBefore s r) := by
  unfold movieAfter movieBefore accumRecord
  rw [lookupA_upsert_self]
  rfl

/-- One summary-loop step rewrites the touched city sub-bucket by `stepD`. -/
theorem cityAfter_eq (s : List (String × MovieAgg)) (r : ShowRecord) :
    cityAfter s r = stepD r (cityBefore s r) := by
  unfold cityAfter cityBefore
  rw [movieAfter_eq]
  show (lookupA _ (upsert (r.city, r.state) initD (updDB r (occR r))
    (movieBefore s r).details)).getD initD = _
  rw [lookupA_upsert_self]
  rfl

/-- One summary-loop step rewrites the touched language sub-bucket by `stepD`. -/
theorem langAfter_eq (s : List (String × MovieAgg)) (r : ShowRecord) :
    langAfter s r = stepD r (langBefore s r) := by
  unfold langAfter langBefore
  rw [movieAfter_eq]
  show (lookupA _ (upsert r.language initD (updDB r (occR r))
    (movieBefore s r).lang_details)).getD initD = _
  rw [lookupA_upsert_self]
  rfl

/-- One summary-loop step rewrites the touched format sub-bucket by `stepD`. -/
theorem fmtAfter_eq (s : List (String × MovieAgg)) (r : ShowRecord) :
    fmtAfter s r = stepD r (fmtBefore s r) := by
  unfold fmtAfter fmtBefore
  rw [movieAfter_eq]
  show (lookupA _ (upsert r.dimension initD (updDB r (occR r))
    (movieBefore s r).fmt_details)).getD initD = _
  rw [lookupA_upsert_self]
  rfl

/-- C3 -- Classification: in each of the four buckets a record contributes
to (its movie's top level, its (city, state), its language, its format), the
`housefull` counter is incremented exactly when the record's occupancy is
at least 98, the `fastfilling` counter exactly when it lies in [50, 98),
and no record can increment both in the same bucket. -/
theorem classification_exclusive (s : List (String × MovieAgg)) (r : ShowRecord) :
    ((movieAfter s r).housefull
        = (movieBefore s r).housefull + (if 98 ≤ occR r then 1 else 0)
      ∧ (movieAfter s r).fastfilling
        = (movieBefore s r).fastfilling
          + (if 50 ≤ occR r ∧ occR r < 98 then 1 else 0))
    ∧ ((cityAfter s r).housefull
        = (cityBefore s r).housefull + (if 98 ≤ occR r then 1 else 0)
      ∧ (cityAfter s r).fastfilling
        = (cityBefore s r).fastfilling
          + (if 50 ≤ occR r ∧ occR r < 98 then 1 else 0))
    ∧ ((langAfter s r).housefull
        = (langBefore s r).housefull + (if 98 ≤ occR r then 1 else 0)
      ∧ (langAfter s r).fastfilling
        = (langBefore s r).fastfilling
          + (if 50 ≤ occR r ∧ occR r < 98 then 1 else 0))
    ∧ ((fmtAfter s r).housefull
        = (fmtBefore s r).housefull + (if 98 ≤ occR r then 1 else 0)
      ∧ (fmtAfter s r).fastfilling
        = (fmtBefore s r).fastfilling
          + (if 50 ≤ occR r ∧ occR r < 98 then 1 else 0))
    ∧ ¬(98 ≤ occR r ∧ (50 ≤ occR r ∧ occR r < 98)) := by
  rw [movieAfter_eq, cityAfter_eq, langAfter_eq, fmtAfter_eq]
  simp only [stepMovie, stepD, updDB]
  by_cases h98 : 98 ≤ occR r
  · have hn : ¬ (50 ≤ occR r ∧ occR r < 98) := by
      rintro ⟨-, hlt⟩
      exact absurd h98 (not_le.2 hlt)
    simp [h98, hn]
  · by_cases h50 : 50 ≤ occR r
    · have hy : 50 ≤ occR r ∧ occR r < 98 := ⟨h50, not_le.1 h98⟩
      simp [h98, h50, hy]
    · have hn : ¬ (50 ≤ occR r ∧ occR r < 98) := fun h => h50 h.1
      simp [h98, h50, hn]

/-- Witness for C2 at a concrete two-record input. -/
theorem bucket_sum_conservation_witness :
    (("M", sampleFM) ∈ finalSummary sampleRows)
    ∧ (((sampleFM.City_details.map FinalCityD.shows).sum = sampleFM.shows
      ∧ (sampleFM.City_details.map FinalCityD.sold).sum = sampleFM.sold
      ∧ (sampleFM.City_details.map FinalCityD.totalSeats).sum = sampleFM.totalSeats)
    ∧ ((sampleFM.Language_details.map FinalDimD.shows).sum = sampleFM.shows
      ∧ (sampleFM.Language_details.map FinalDimD.sold).sum = sampleFM.sold
      ∧ (sampleFM.Language_details.map FinalDimD.totalSeats).sum = sampleFM.totalSeats)
    ∧ ((sampleFM.Format_details.map FinalDimD.shows).sum = sampleFM.shows
      ∧ (sampleFM.Format_details.map FinalDimD.sold).sum = sampleFM.sold
      ∧ (sampleFM.Format_details.map FinalDimD.totalSeats).sum = sampleFM.totalSeats)) :=
  ⟨by decide, bucket_sum_conservation sampleRows "M" sampleFM (by decide)⟩

end BMS

namespace BMS

/-- Half-even rounding stays within integer bounds enclosing its argument. -/
theorem roundHalfEven_bounds {q : ℚ} {C : ℤ} (h0 : 0 ≤ q) (hC : q ≤ (C : ℚ)) :
    0 ≤ roundHalfEven q ∧ roundHalfEven q ≤ C := by
  have hf0 : 0 ≤ ⌊q⌋ := Int.le_floor.2 (by exact_mod_cast h0)
  have hfC : ⌊q⌋ ≤ C := by
    have h := Int.floor_le_floor hC
    simpa using h
  have hfloor : (⌊q⌋ : ℚ) ≤ q := Int.floor_le q
  unfold roundHalfEven
  split_ifs with h1 h2 h3
  · exact ⟨hf0, hfC⟩
  · refine ⟨by omega, ?_⟩
    have hlt : (⌊q⌋ : ℚ) < (C : ℚ) := by linarith
    have hfltC : ⌊q⌋ < C := by exact_mod_cast hlt
    omega
  · exact ⟨hf0, hfC⟩
  · refine ⟨by omega, ?_⟩
    have hge : 1 / 2 ≤ q - ⌊q⌋ := not_lt.1 h1
    have hlt : (⌊q⌋ : ℚ) < (C : ℚ) := by linarith
    have hfltC : ⌊q⌋ < C := by exact_mod_cast hlt
    omega

/-- `round(q, 2)` stays within [0, 100] when `q` does. -/
theorem pyRound2_bounds {q : ℚ} (h0 : 0 ≤ q) (h100 : q ≤ 100) :
    0 ≤ pyRound2 q ∧ pyRound2 q ≤ 100 := by
  have h1 : 0 ≤ q * 100 := by positivity
  have h2 : q * 100 ≤ ((10000 : ℤ) : ℚ) := by push_cast; linarith
  obtain ⟨hl, hr⟩ := roundHalfEven_bounds h1 h2
  unfold pyRound2
  constructor
  · exact div_nonneg (by exact_mod_cast hl) (by norm_num)
  · rw [div_le_iff₀ (by norm_num : (0 : ℚ) < 100)]
    have : ((roundHalfEven (q * 100) : ℚ)) ≤ 10000 := by exact_mod_cast hr
    linarith

/-- `calc_occupancy` with `total = 0` is the zero branch. -/
theorem calc_occupancy_zero (s : ℤ) : calc_occupancy s 0 = 0 := by
  simp [calc_occupancy]

/-- `calc_occupancy` stays within [0, 100] on well-formed counts. -/
theorem calc_occupancy_bounds {s t : ℤ} (h0 : 0 ≤ s) (hst : s ≤ t) (ht : 0 < t) :
    0 ≤ calc_occupancy s t ∧ calc_occupancy s t ≤ 100 := by
  unfold calc_occupancy
  rw [if_pos (by omega : t ≠ 0)]
  have htq : (0 : ℚ) < (t : ℚ) := by exact_mod_cast ht
  have hq0 : (0 : ℚ) ≤ (s : ℚ) / (t : ℚ) :=
    div_nonneg (by exact_mod_cast h0) htq.le
  have hq1 : (s : ℚ) / (t : ℚ) ≤ 1 :=
    (div_le_one htq).2 (by exact_mod_cast hst)
  exact pyRound2_bounds (by linarith) (by linarith)

/-- Sums of per-record well-formed counts are well-formed. -/
theorem sums_mono (l : List ShowRecord)
    (h : ∀ r ∈ l, 0 ≤ r.sold ∧ r.sold ≤ r.totalSeats) :
    0 ≤ (l.map ShowRecord.sold).sum
    ∧ (l.map ShowRecord.sold).sum ≤ (l.map ShowRecord.totalSeats).sum := by
  induction l with
  | nil => simp
  | cons a t ih =>
    have ha := h a (List.mem_cons_self a t)
    have ht := ih fun r hr => h r (List.mem_cons_of_mem a hr)
    simp only [List.map_cons, List.sum_cons]
    constructor
    · linarith [ha.1, ht.1]
    · linarith [ha.2, ht.2]

/-- The occupancy triple of an accumulated sub-bucket built from well-formed
records: derivation formula, zero case, and bounds. -/
theorem bucket_occ_core (l : List ShowRecord)
    (h : ∀ r ∈ l, 0 ≤ r.sold ∧ r.sold ≤ r.totalSeats) :
    ((bfold stepD initD l).totalSeats = 0 →
      calc_occupancy (bfold stepD initD l).sold (bfold stepD initD l).totalSeats = 0)
    ∧ (0 < (bfold stepD initD l).totalSeats →
      0 ≤ calc_occupancy (bfold stepD initD l).sold (bfold stepD initD l).totalSeats
      ∧ calc_occupancy (bfold stepD initD l).sold (bfold stepD initD l).totalSeats ≤ 100) := by
  rw [bfold_stepD_initD]
  obtain ⟨hs0, hst⟩ := sums_mono l h
  constructor
  · intro hz
    rw [show (dbOf l).totalSeats = (l.map ShowRecord.totalSeats).sum from rfl] at hz
    show calc_occupancy (l.map ShowRecord.sold).sum (l.map ShowRecord.totalSeats).sum = 0
    rw [hz, calc_occupancy_zero]
  · intro hpos
    exact calc_occupancy_bounds hs0 hst hpos

/-- C4 (amended) -- Occupancy is derived by `calc_occupancy` (which returns
`round(100 * sold / totalSeats, 2)` for nonzero seats and `0.0` otherwise),
and for every bucket of the final summary built from records with
`0 ≤ sold ≤ totalSeats`, the occupancy lies in [0, 100] whenever
`totalSeats > 0` and is 0 whenever `totalSeats = 0`.  (The well-formedness
hypothesis is necessary: see the counterexample.) -/
theorem occupancy_bounds (rows : List ShowRecord)
    (hw : ∀ r ∈ rows, 0 ≤ r.sold ∧ r.sold ≤ r.totalSeats) :
    ∀ mv fm, (mv, fm) ∈ finalSummary rows →
      (fm.occupancy = calc_occupancy fm.sold fm.totalSeats
        ∧ (fm.totalSeats = 0 → fm.occupancy = 0)
        ∧ (0 < fm.totalSeats → 0 ≤ fm.occupancy ∧ fm.occupancy ≤ 100))
      ∧ (∀ d ∈ fm.City_details,
          d.occupancy = calc_occupancy d.sold d.totalSeats
          ∧ (d.totalSeats = 0 → d.occupancy = 0)
          ∧ (0 < d.totalSeats → 0 ≤ d.occupancy ∧ d.occupancy ≤ 100))
      ∧ (∀ d ∈ fm.Language_details,
          d.occupancy = calc_occupancy d.sold d.totalSeats
          ∧ (d.totalSeats = 0 → d.occupancy = 0)
          ∧ (0 < d.totalSeats → 0 ≤ d.occupancy ∧ d.occupancy ≤ 100))
      ∧ (∀ d ∈ fm.Format_details,
          d.occupancy = calc_occupancy d.sold d.totalSeats
          ∧ (d.totalSeats = 0 → d.occupancy = 0)
          ∧ (0 < d.totalSeats → 0 ≤ d.occupancy ∧ d.occupancy ≤ 100)) := by
  intro mv fm hmem
  rcases mem_finalSummary hmem with ⟨a, _, _, hfm⟩
  subst hfm
  set l : List ShowRecord := rows.filter fun b => decide (b.movie = a.movie) with hldef
  have hwl : ∀ r ∈ l, 0 ≤ r.sold ∧ r.sold ≤ r.totalSeats := fun r hr =>
    hw r ((List.filter_sublist rows).mem hr)
  refine ⟨⟨rfl, ?_, ?_⟩, ?_, ?_, ?_⟩
  · intro hz
    show calc_occupancy (bfold stepMovie initMovie l).sold
      (bfold stepMovie initMovie l).totalSeats = 0
    have hz2 : (bfold stepMovie initMovie l).totalSeats = 0 := hz
    rw [hz2, calc_occupancy_zero]
  · intro hpos
    obtain ⟨hs0, hst⟩ := sums_mono l hwl
    have hsold : (finalizeMovie (bfold stepMovie initMovie l)).sold
        = (l.map ShowRecord.sold).sum := by
      rw [bfold_stepMovie_eq]; simp [finalizeMovie, initMovie]
    have htot : (finalizeMovie (bfold stepMovie initMovie l)).totalSeats
        = (l.map ShowRecord.totalSeats).sum := by
      rw [bfold_stepMovie_eq]; simp [finalizeMovie, initMovie]
    have hocc : (finalizeMovie (bfold stepMovie initMovie l)).occupancy
        = calc_occupancy (finalizeMovie (bfold stepMovie initMovie l)).sold
            (finalizeMovie (bfold stepMovie initMovie l)).totalSeats := rfl
    rw [hocc, hsold, htot]
    rw [htot] at hpos
    exact calc_occupancy_bounds hs0 hst hpos
  · intro d hd
    rw [(finalize_details_eq l).1] at hd
    rcases List.mem_map.1 hd with ⟨a2, _, hda⟩
    subst hda
    have hwl2 : ∀ r ∈ l.filter fun b =>
        decide ((b.city, b.state) = (a2.city, a2.state)), 0 ≤ r.sold ∧ r.sold ≤ r.totalSeats :=
      fun r hr => hwl r ((List.filter_sublist l).mem hr)
    obtain ⟨hz, hb⟩ := bucket_occ_core _ hwl2
    exact ⟨rfl, hz, hb⟩
  · intro d hd
    rw [(finalize_details_eq l).2.1] at hd
    rcases List.mem_map.1 hd with ⟨a2, _, hda⟩
    subst hda
    have hwl2 : ∀ r ∈ l.filter fun b =>
        decide (b.language = a2.language), 0 ≤ r.sold ∧ r.sold ≤ r.totalSeats :=
      fun r hr => hwl r ((List.filter_sublist l).mem hr)
    obtain ⟨hz, hb⟩ := bucket_occ_core _ hwl2
    exact ⟨rfl, hz, hb⟩
  · intro d hd
    rw [(finalize_details_eq l).2.2] at hd
    rcases List.mem_map.1 hd with ⟨a2, _, hda⟩
    subst hda
    have hwl2 : ∀ r ∈ l.filter fun b =>
        decide (b.dimension = a2.dimension), 0 ≤ r.sold ∧ r.sold ≤ r.totalSeats :=
      fun r hr => hwl r ((List.filter_sublist l).mem hr)
    obtain ⟨hz, hb⟩ := bucket_occ_core _ hwl2
    exact ⟨rfl, hz, hb⟩

/-- Counterexample to C4 as stated: a record with more available seats than
capacity (negative `sold`, as the parser produces from `SeatsAvail > MaxSeats`)
yields a final-summary bucket with `totalSeats = 100 > 0` and
`occupancy = -100`, outside [0, 100]. -/
theorem occupancy_bounds_cex :
    (parse_payload "20260101" badPayload = Except.ok [badParsed]
      ∧ tagRecord "Mumbai" "MH" "BMS" "20260101" badParsed = badRec
      ∧ (("M", badFM) ∈ finalSummary [badRec])
      ∧ 0 < badFM.totalSeats ∧ badFM.occupancy = -100)
    ∧ ¬ (∀ (rows : List ShowRecord) (mv : String) (fm : FinalMovie),
        (mv, fm) ∈ finalSummary rows → 0 < fm.totalSeats →
          0 ≤ fm.occupancy ∧ fm.occupancy ≤ 100) := by
  refine ⟨⟨rfl, rfl, by decide, by decide, by decide⟩, ?_⟩
  intro hall
  have h := hall [badRec] "M" badFM (by decide) (by decide)
  have : ¬ (0 ≤ badFM.occupancy) := by decide
  exact this h.1

/-- Witness for the amended C4 at a concrete well-formed input. -/
theorem occupancy_bounds_witness :
    (∀ r ∈ sampleRows, 0 ≤ r.sold ∧ r.sold ≤ r.totalSeats)
    ∧ (∀ mv fm, (mv, fm) ∈ finalSummary sampleRows →
      (fm.occupancy = calc_occupancy fm.sold fm.totalSeats
        ∧ (fm.totalSeats = 0 → fm.occupancy = 0)
        ∧ (0 < fm.totalSeats → 0 ≤ fm.occupancy ∧ fm.occupancy ≤ 100))
      ∧ (∀ d ∈ fm.City_details,
          d.occupancy = calc_occupancy d.sold d.totalSeats
          ∧ (d.totalSeats = 0 → d.occupancy = 0)
          ∧ (0 < d.totalSeats → 0 ≤ d.occupancy ∧ d.occupancy ≤ 100))
      ∧ (∀ d ∈ fm.Language_details,
          d.occupancy = calc_occupancy d.sold d.totalSeats
          ∧ (d.totalSeats = 0 → d.occupancy = 0)
          ∧ (0 < d.totalSeats → 0 ≤ d.occupancy ∧ d.occupancy ≤ 100))
      ∧ (∀ d ∈ fm.Format_details,
          d.occupancy = calc_occupancy d.sold d.totalSeats
          ∧ (d.totalSeats = 0 → d.occupancy = 0)
          ∧ (0 < d.totalSeats → 0 ≤ d.occupancy ∧ d.occupancy ≤ 100))) :=
  ⟨by decide, occupancy_bounds sampleRows (by decide)⟩

end BMS

namespace BMS

@[simp] theorem except_bind_ok {ε α β : Type} (a : α) (f : α → Except ε β) :
    (Except.ok a >>= f : Except ε β) = f a := rfl

@[simp] theorem except_pure {ε α : Type} (a : α) :
    (pure a : Except ε α) = Except.ok a := rfl

/-- The category loop on an encoded well-typed category list adds the four
componentwise sums to the running totals. -/
theorem sumCatsAux_encode (cs : List CatSpec) : ∀ acc : ℤ × ℤ × ℤ × ℚ,
    sumCatsAux acc (cs.map encodeCat)
      = Except.ok (acc.1 + (cs.map catMax).sum, acc.2.1 + (cs.map catAvail).sum,
          acc.2.2.1 + (cs.map fun c => catMax c - catAvail c).sum,
          acc.2.2.2 + (cs.map fun c => (catMax c - catAvail c) * catPrice c).sum) := by
  induction cs with
  | nil => intro acc; simp [sumCatsAux]
  | cons c rest ih =>
    intro acc
    obtain ⟨ms, sa, cp⟩ := c
    rcases ms with _ | m <;> rcases sa with _ | sv <;> rcases cp with _ | q <;>
      (simp [sumCatsAux, encodeCat, optField, pyGet, jlookup, pyInt, pyFloat,
        ih, catMax, catAvail, catPrice, Prod.ext_iff] <;>
       (repeat' apply And.intro) <;> ring)

/-- Trimming the empty string is the empty string. -/
theorem empty_trim : strTrim "" = "" := by decide

/-- The auditorium field: a missing or empty `Attributes` value collapses to
the empty string, anything else passes through. -/
theorem audi_encode (av : String) :
    (if pyTruthy (JVal.jstr av) then asStr (JVal.jstr av)
      else (pure "" : Except PyErr String)) = Except.ok av := by
  by_cases hav : av = "" <;> simp [pyTruthy, asStr, hav]

/-- The show-time body on an encoded well-typed entry: one record when the
date code matches, nothing otherwise. -/
theorem doShow_encode (dc vn va chain title dim lang : String) (s : ShowSpec) :
    doShow dc vn va chain title dim lang (encodeShow s)
      = Except.ok (if s.dateCode = some dc
          then [specShow vn va chain title dim lang s] else []) := by
  obtain ⟨sdc, st, at_, sid, cats⟩ := s
  rcases sdc with _ | d
  · rcases st with _ | t <;> rcases at_ with _ | av <;> rcases sid with _ | n <;>
      simp [doShow, encodeShow, optField, pyGet, jlookup, isStrEq]
  · by_cases hd : d = dc
    · subst hd
      rcases st with _ | t <;> rcases at_ with _ | av <;> rcases sid with _ | n <;>
        (simp [doShow, encodeShow, optField, pyGet, jlookup, isStrEq, pyIter,
          sumCats, sumCatsAux_encode, asStr, audi_encode, pyStrOf, specShow] <;>
         (try (intro h; simp [pyTruthy] at h; exact h.symm)))
    · rcases st with _ | t <;> rcases at_ with _ | av <;> rcases sid with _ | n <;>
        simp [doShow, encodeShow, optField, pyGet, jlookup, isStrEq, hd,
          Ne.symm hd]

/-- The show-time loop on encoded entries appends the records of the
surviving entries in order. -/
theorem loopShows_encode (dc vn va chain title dim lang : String)
    (ss : List ShowSpec) : ∀ acc : List ShowRecord,
    loopShows dc vn va chain title dim lang acc (ss.map encodeShow)
      = Except.ok (acc ++ (ss.filter fun s => decide (s.dateCode = some dc)).map
          (specShow vn va chain title dim lang)) := by
  induction ss with
  | nil => intro acc; simp [loopShows]
  | cons s rest ih =>
    intro acc
    simp only [List.map_cons, loopShows, doShow_encode, except_bind_ok]
    by_cases hs : s.dateCode = some dc
    · rw [if_pos hs, List.filter_cons_of_pos (by simpa using hs), ih]
      simp
    · rw [if_neg hs, List.filter_cons_of_neg (by simpa using hs), ih]
      simp

/-- The child-event body on an encoded well-typed child: the sentinel policy
on dimension and language, then the show-time loop. -/
theorem doChild_encode (dc vn va chain title : String) (c : ChildSpec) :
    doChild dc vn va chain title (encodeChild c)
      = Except.ok ((c.shows.filter fun s => decide (s.dateCode = some dc)).map
          (specShow vn va chain title (sentinelStr c.dim) (sentinelStr c.lang))) := by
  obtain ⟨dim, lang, shows⟩ := c
  rcases dim with _ | ds <;> rcases lang with _ | ls <;>
    simp [doChild, encodeChild, optField, pyGet, jlookup, pyStrip, pyIter,
      sentinelStr, loopShows_encode, empty_trim]

/-- The child-event loop on encoded children concatenates their records. -/
theorem loopChilds_encode (dc vn va chain title : String)
    (cs : List ChildSpec) : ∀ acc : List ShowRecord,
    loopChilds dc vn va chain title acc (cs.map encodeChild)
      = Except.ok (acc ++ cs.flatMap fun c =>
          (c.shows.filter fun s => decide (s.dateCode = some dc)).map
            (specShow vn va chain title (sentinelStr c.dim) (sentinelStr c.lang))) := by
  induction cs with
  | nil => intro acc; simp [loopChilds]
  | cons c rest ih =>
    intro acc
    simp only [List.map_cons, loopChilds, doChild_encode, except_bind_ok, ih]
    simp

/-- The event body on an encoded well-typed event: title defaulting, then
the child-event loop. -/
theorem doEvent_encode (dc vn va chain : String) (e : EventSpec) :
    doEvent dc vn va chain (encodeEvent e)
      = Except.ok (e.childs.flatMap fun c =>
          (c.shows.filter fun s => decide (s.dateCode = some dc)).map
            (specShow vn va chain (e.title.getD "Unknown")
              (sentinelStr c.dim) (sentinelStr c.lang))) := by
  obtain ⟨title, childs⟩ := e
  rcases title with _ | t <;>
    simp [doEvent, encodeEvent, optField, pyGet, jlookup, asStr, pyIter,
      loopChilds_encode]

/-- The event loop on encoded events concatenates their records. -/
theorem loopEvents_encode (dc vn va chain : String)
    (es : List EventSpec) : ∀ acc : List ShowRecord,
    loopEvents dc vn va chain acc (es.map encodeEvent)
      = Except.ok (acc ++ es.flatMap fun e =>
          e.childs.flatMap fun c =>
            (c.shows.filter fun s => decide (s.dateCode = some dc)).map
              (specShow vn va chain (e.title.getD "Unknown")
                (sentinelStr c.dim) (sentinelStr c.lang))) := by
  induction es with
  | nil => intro acc; simp [loopEvents]
  | cons e rest ih =>
    intro acc
    simp only [List.map_cons, loopEvents, doEvent_encode, except_bind_ok, ih]
    simp

/-- Full parser correctness on the well-typed fragment: `parse_payload`
returns exactly the records described by `specRecords`, and never raises. -/
theorem parse_mkPayload (dc : String) (p : PayloadSpec) :
    parse_payload dc (mkPayload p) = Except.ok (specRecords dc p) := by
  obtain ⟨venue, events⟩ := p
  rcases venue with _ | ⟨vn, vad, vcp⟩
  · simp [parse_payload, mkPayload, optField, pyGet, jlookup, pyTruthy,
      pyIndex0, asStr, pyIter, loopEvents_encode, specRecords,
      specVenueName, specVenueAdd, specChain]
  · rcases vn with _ | n <;> rcases vad with _ | ad <;> rcases vcp with _ | cp <;>
      simp [parse_payload, mkPayload, encodeVenue, optField, pyGet, jlookup,
        pyTruthy, pyIndex0, asStr, pyIter, loopEvents_encode, specRecords,
        specVenueName, specVenueAdd, specChain]

end BMS

namespace BMS

/-- Membership in the parser's well-typed output characterizes the record as
`specShow` of some show-time entry of the payload. -/
theorem mem_specRecords {dc : String} {p : PayloadSpec} {r : ShowRecord}
    (hr : r ∈ specRecords dc p) :
    ∃ e, e ∈ p.events ∧ ∃ c, c ∈ e.childs ∧ ∃ s, s ∈ c.shows ∧
      s.dateCode = some dc ∧
      r = specShow (specVenueName p) (specVenueAdd p) (specChain p)
        (e.title.getD "Unknown") (sentinelStr c.dim) (sentinelStr c.lang) s := by
  unfold specRecords at hr
  rcases List.mem_flatMap.1 hr with ⟨e, he, hr1⟩
  rcases List.mem_flatMap.1 hr1 with ⟨c, hc, hr2⟩
  rcases List.mem_map.1 hr2 with ⟨s, hs, hrs⟩
  have hf := List.mem_filter.1 hs
  exact ⟨e, he, c, hc, s, hf.1, by simpa using hf.2, hrs.symm⟩

/-- C5 (amended) -- Every record the parser emits from a well-typed payload
comes from a specific show-time entry of that payload that survives the
date filter, and its `totalSeats`, `available` and `sold` are the sums over
that entry's own seat categories of capacity, available, and
capacity − available (missing numeric fields defaulting to 0), while its
`gross` is the 2-decimal rounding of the sum of
(capacity − available) × price over the same categories; Scenario A parses
to one record with `totalSeats = 100, sold = 98, available = 2,
gross = 19600`, whose summary occupancy is 98.0 and which is classified
housefull. -/
theorem parser_category_sums :
    (∀ (dc : String) (p : PayloadSpec) (rs : List ShowRecord),
      parse_payload dc (mkPayload p) = Except.ok rs →
      ∀ r ∈ rs, ∃ e, e ∈ p.events ∧ ∃ c, c ∈ e.childs ∧ ∃ s, s ∈ c.shows ∧
        s.dateCode = some dc ∧
        r = specShow (specVenueName p) (specVenueAdd p) (specChain p)
          (e.title.getD "Unknown") (sentinelStr c.dim) (sentinelStr c.lang) s ∧
        r.totalSeats = (s.cats.map catMax).sum
        ∧ r.available = (s.cats.map catAvail).sum
        ∧ r.sold = (s.cats.map fun cc => catMax cc - catAvail cc).sum
        ∧ r.gross = pyRound2
            ((s.cats.map fun cc => (catMax cc - catAvail cc) * catPrice cc).sum))
    ∧ (parse_payload "20260101" scenarioAPayload = Except.ok [scenarioARec]
      ∧ scenarioARec.totalSeats = 100 ∧ scenarioARec.sold = 98
      ∧ scenarioARec.available = 2 ∧ scenarioARec.gross = 19600
      ∧ occR (tagRecord "Mumbai" "MH" "BMS" "20260101" scenarioARec) = 98
      ∧ (("M", finalizeMovie (bfold stepMovie initMovie
          [tagRecord "Mumbai" "MH" "BMS" "20260101" scenarioARec]))
            ∈ finalSummary [tagRecord "Mumbai" "MH" "BMS" "20260101" scenarioARec])
      ∧ (finalizeMovie (bfold stepMovie initMovie
          [tagRecord "Mumbai" "MH" "BMS" "20260101" scenarioARec])).housefull = 1
      ∧ (finalizeMovie (bfold stepMovie initMovie
          [tagRecord "Mumbai" "MH" "BMS" "20260101" scenarioARec])).occupancy = 98) := by
  constructor
  · intro dc p rs h r hr
    rw [parse_mkPayload] at h
    injection h with h
    subst h
    rcases mem_specRecords hr with ⟨e, he, c, hc, s, hs, hdc, hrs⟩
    exact ⟨e, he, c, hc, s, hs, hdc, hrs,
      by rw [hrs]; exact ⟨rfl, rfl, rfl, rfl⟩⟩
  · exact ⟨rfl, rfl, rfl, rfl, rfl, by decide, by decide, by decide, by decide⟩

/-- Witness for the amended C5 at Scenario A's payload. -/
theorem parser_category_sums_witness :
    (parse_payload "20260101" (mkPayload scenarioASpec) = Except.ok [scenarioARec])
    ∧ ∀ r ∈ [scenarioARec], ∃ e, e ∈ scenarioASpec.events ∧ ∃ c, c ∈ e.childs ∧
        ∃ s, s ∈ c.shows ∧
        s.dateCode = some "20260101" ∧
        r = specShow (specVenueName scenarioASpec) (specVenueAdd scenarioASpec)
          (specChain scenarioASpec) (e.title.getD "Unknown")
          (sentinelStr c.dim) (sentinelStr c.lang) s ∧
        r.totalSeats = (s.cats.map catMax).sum
        ∧ r.available = (s.cats.map catAvail).sum
        ∧ r.sold = (s.cats.map fun cc => catMax cc - catAvail cc).sum
        ∧ r.gross = pyRound2
            ((s.cats.map fun cc => (catMax cc - catAvail cc) * catPrice cc).sum) :=
  ⟨rfl, parser_category_sums.1 "20260101" scenarioASpec [scenarioARec] rfl⟩

/-- Counterexample to C5 as stated: for a category priced at 0.015, the sum
of (capacity − available) × price is 3/200 = 0.015, but the parser stores
`round(., 2)` of it, 1/50 = 0.02 — so `gross` is not that sum. -/
theorem gross_rounding_cex :
    parse_payload "20260101" (mkPayload cexPriceSpec) = Except.ok [cexPriceRec]
    ∧ (cexPriceCats.map fun c => (catMax c - catAvail c) * catPrice c).sum = 3 / 200
    ∧ cexPriceRec.gross = 1 / 50
    ∧ cexPriceRec.gross
        ≠ (cexPriceCats.map fun c => (catMax c - catAvail c) * catPrice c).sum :=
  ⟨rfl, by decide, rfl, by decide⟩

/-- C6 (amended) -- For every record the parser emits from a well-typed
payload, `dimension` and `language` follow the `"UNKNOWN"` sentinel policy
(missing or whitespace-only after stripping), while `audi` defaults to the
empty string, not to `"UNKNOWN"`. -/
theorem string_sentinels (dc : String) (p : PayloadSpec) (rs : List ShowRecord)
    (h : parse_payload dc (mkPayload p) = Except.ok rs) :
    ∀ r ∈ rs, ∃ e, e ∈ p.events ∧ ∃ c, c ∈ e.childs ∧ ∃ s, s ∈ c.shows ∧
      r.dimension = sentinelStr c.dim ∧ r.language = sentinelStr c.lang
      ∧ r.audi = s.attrs.getD "" := by
  intro r hr
  rw [parse_mkPayload] at h
  injection h with h
  subst h
  rcases mem_specRecords hr with ⟨e, he, c, hc, s, hs, -, hrs⟩
  exact ⟨e, he, c, hc, s, hs, by rw [hrs]; exact ⟨rfl, rfl, rfl⟩⟩

/-- Witness for the amended C6 at the `Attributes`-free payload. -/
theorem string_sentinels_witness :
    (parse_payload "20260101" (mkPayload c6Spec) = Except.ok [c6Rec])
    ∧ ∀ r ∈ [c6Rec], ∃ e, e ∈ c6Spec.events ∧ ∃ c, c ∈ e.childs ∧
        ∃ s, s ∈ c.shows ∧
        r.dimension = sentinelStr c.dim ∧ r.language = sentinelStr c.lang
        ∧ r.audi = s.attrs.getD "" :=
  ⟨rfl, string_sentinels "20260101" c6Spec [c6Rec] rfl⟩

/-- Counterexample to C6 as stated: a payload with no `Attributes` field
parses to a record whose `audi` is `""`, not the `"UNKNOWN"` sentinel the
claim asserts for all three string fields. -/
theorem audi_sentinel_cex :
    parse_payload "20260101" c6Payload = Except.ok [c6Rec]
    ∧ c6Rec.audi = "" ∧ c6Rec.audi ≠ "UNKNOWN"
    ∧ c6Rec.dimension = "2D" ∧ c6Rec.language = "Hindi" :=
  ⟨rfl, rfl, by decide, rfl, rfl⟩

/-- C7 (amended) -- On any payload whose present fields are well-typed,
missing fields are handled entirely inside the parser by defaulting and
parse returns a result rather than raising. -/
theorem parse_welltyped_ok (dc : String) (p : PayloadSpec) :
    ∃ rs, parse_payload dc (mkPayload p) = Except.ok rs :=
  ⟨specRecords dc p, parse_mkPayload dc p⟩

/-- Counterexample to C7 as stated: a syntactically valid JSON payload whose
`MaxSeats` holds the string "N/A" makes `int(...)` raise `ValueError`, so
parse does raise and the orchestrator's per-venue handler records a failure. -/
theorem parse_raises_cex :
    parse_payload "20260101" c7Payload = Except.error PyErr.valueError
    ∧ ¬ (∀ (dc : String) (data : JVal), ∃ rs,
        parse_payload dc data = Except.ok rs) := by
  constructor
  · rfl
  · intro hall
    rcases hall "20260101" c7Payload with ⟨rs, hrs⟩
    rw [show parse_payload "20260101" c7Payload = Except.error PyErr.valueError
      from rfl] at hrs
    exact Except.noConfusion hrs

/-- Looking up `ShowDetails` after truncation gives the truncated list. -/
theorem jlookup_truncFields : ∀ fields : List (String × JVal),
    jlookup "ShowDetails" (truncFields fields)
      = match jlookup "ShowDetails" fields with
        | some (JVal.jarr (x :: _)) => some (JVal.jarr [x])
        | o => o
  | [] => rfl
  | (k, v) :: rest => by
    by_cases hk : k = "ShowDetails"
    · subst hk
      cases v with
      | jarr l => cases l <;> simp [truncFields, jlookup]
      | jnull => simp [truncFields, jlookup]
      | jbool b => simp [truncFields, jlookup]
      | jint n => simp [truncFields, jlookup]
      | jnum q => simp [truncFields, jlookup]
      | jstr s => simp [truncFields, jlookup]
      | jobj fs => simp [truncFields, jlookup]
    · simp [truncFields, jlookup, hk, jlookup_truncFields rest]

/-- C10 -- The parser reads the venue block and the event list only from
`ShowDetails[0]`: parsing a payload equals parsing the payload with its
`ShowDetails` list truncated to its first element, so records described in
later `ShowDetails` elements are never emitted. -/
theorem parse_truncateSD (dc : String) (data : JVal) :
    parse_payload dc (truncateSD data) = parse_payload dc data := by
  cases data with
  | jobj fields =>
    show parse_payload dc (JVal.jobj (truncFields fields)) = _
    unfold parse_payload
    simp only [pyGet, except_bind_ok, jlookup_truncFields]
    rcases hsd : jlookup "ShowDetails" fields with - | v
    · rfl
    · cases v with
      | jarr l =>
        cases l with
        | nil => rfl
        | cons x xs => simp [pyTruthy, pyIndex0]
      | jnull => rfl
      | jbool b => rfl
      | jint n => rfl
      | jnum q => rfl
      | jstr s => rfl
      | jobj fs => rfl
  | jnull => rfl
  | jbool b => rfl
  | jint n => rfl
  | jnum q => rfl
  | jstr s => rfl
  | jarr l => rfl

end BMS
